import Mathlib

/-!
Verification of the oszap-back WhatsApp assistant backend.

This file gives a shallow embedding, in Lean, of the parts of the
TypeScript source that the specification's testable properties talk
about, and proves or refutes each property against that embedding.

Conventions of the embedding:
* JavaScript values that matter only through truthiness and field
  access are modelled by a small JSON-like inductive type `JVal`.
* Machine time is modelled as natural-number milliseconds since the
  local epoch; the local timezone is taken as a fixed offset (no DST),
  so JS `Date` field operations (`setHours`, `setDate`, `getDay`)
  become arithmetic over `Nat`.
* Effectful repository / gateway calls are abstracted as `Except`-valued
  parameters: a handler body is embedded as the exact control flow of
  the source over those abstract calls.
-/

namespace OSZap

/-! ### Basic character and string utilities -/

/-- Digits-only normalisation: the TS idiom `s.replace(/\D/g, '')`. -/
def digitsOnly (s : String) : String :=
  ⟨s.toList.filter Char.isDigit⟩

/-- Whether `pat` occurs at the head of `cs`. -/
def hasPre (pat cs : List Char) : Bool :=
  match pat, cs with
  | [], _ => true
  | _ :: _, [] => false
  | p :: ps, c :: cs => p == c && hasPre ps cs

/-- Whether `pat` occurs contiguously anywhere in `cs`: the TS idiom
`s.includes(pat)`. -/
def occursIn (pat : List Char) : List Char → Bool
  | [] => pat.isEmpty
  | c :: cs => hasPre pat (c :: cs) || occursIn pat cs

/-- Substring test on `String`s. -/
def strContains (s pat : String) : Bool :=
  occursIn pat.toList s.toList

/-- Lower-casing as JS `toLowerCase` performs it on the characters that
appear in this code base: ASCII letters plus the accented Latin capitals
used in Portuguese. -/
def toLowerPt (c : Char) : Char :=
  if 'A' ≤ c ∧ c ≤ 'Z' then Char.ofNat (c.toNat + 32)
  else if c = 'Ã' then 'ã'
  else if c = 'Á' then 'á'
  else if c = 'Â' then 'â'
  else if c = 'À' then 'à'
  else if c = 'Ç' then 'ç'
  else if c = 'É' then 'é'
  else if c = 'Ê' then 'ê'
  else if c = 'Í' then 'í'
  else if c = 'Ó' then 'ó'
  else if c = 'Ô' then 'ô'
  else if c = 'Õ' then 'õ'
  else if c = 'Ú' then 'ú'
  else c

/-- Lower-casing a character list. -/
def lowerList (cs : List Char) : List Char := cs.map toLowerPt

/-- JS string truthiness for an optional string: `undefined` and the
empty string are falsy. -/
def truthyS : Option String → Bool
  | none => false
  | some s => s != ""

/-- The JS `a || b` fallback chain on optional strings: `a` wins iff it
is truthy. -/
def jsOrO (a b : Option String) : Option String :=
  if truthyS a then a else b

/-- JS `String.prototype.trim` restricted to ASCII whitespace. -/
def jsTrim (s : String) : String :=
  ⟨(((s.toList.dropWhile Char.isWhitespace).reverse).dropWhile Char.isWhitespace).reverse⟩

/-! ### Time constants -/

def msPerMinute : Nat := 60000
def msPerHour : Nat := 3600000
def msPerDay : Nat := 86400000

/-- Local midnight of the day containing `t`. -/
def dayStart (t : Nat) : Nat := (t / msPerDay) * msPerDay

/-- JS `Date.prototype.getDay`: 0 = Sunday … 6 = Saturday.  Epoch day 0
(1970-01-01) was a Thursday, i.e. weekday 4. -/
def weekdayOf (t : Nat) : Nat := (t / msPerDay + 4) % 7

/-! ### C10 — webhook message-upsert filtering

Embedding of `handleMessageUpsert` in `src/routes/webhook.routes.ts`
(lines 109–167): the sequence of early returns that drop a message
before `whatsappHandler.handleMessage(data)` is invoked. -/

structure MsgKey where
  remoteJid : Option String
  fromMe : Option Bool
deriving Repr, DecidableEq

structure UpsertData where
  key : Option MsgKey
  /-- `data.messageTimestamp`, in epoch seconds; `none` models the field
  being absent.  JS truthiness makes the number `0` behave like absence. -/
  messageTimestamp : Option Nat
deriving Repr, DecidableEq

/-- The message timestamp in milliseconds that the route computes:
`data.messageTimestamp ? parseInt(data.messageTimestamp) * 1000 : Date.now()`. -/
def upsertTsMs (d : UpsertData) (now : Nat) : Nat :=
  match d.messageTimestamp with
  | some n => if n = 0 then now else n * 1000
  | none => now

/-- Whether `handleMessageUpsert` reaches the call to
`whatsappHandler.handleMessage`. -/
def handleMessageUpsertInvokes (data : Option UpsertData) (now : Nat) : Bool :=
  match data with
  | none => false
  | some d =>
    match d.key with
    | none => false
    | some k =>
      if (match k.remoteJid with
          | some j => strContains j "@g.us"
          | none => false) then false
      else if (match k.remoteJid with
          | some j => strContains j "@broadcast" || strContains j "status@broadcast"
          | none => false) then false
      else if k.fromMe == some true then false
      else
        let age : Int := (now : Int) - (upsertTsMs d now : Int)
        if age > 5 * 60 * 1000 then false else true

/-! ### C5 — webhook API-key validation

Embedding of `WebhookHandler.validateApiKey` and `WebhookHandler.handle`
in `src/controllers/OrderServiceController.ts` (lines 142–169, 362–393). -/

structure WebhookHeaders where
  xEvolutionApikey : Option String
  xApiKey : Option String
  apikeyHeader : Option String
  authorization : Option String
deriving Repr, DecidableEq

structure WebhookReq where
  headers : WebhookHeaders
  /-- `body.event` when it is a string. -/
  bodyEvent : Option String
  /-- `body.apikey`. -/
  bodyApikey : Option String
  /-- `body.apiKey`. -/
  bodyApiKey : Option String
  path : String
deriving Repr, DecidableEq

/-- JS `String.prototype.split(sep)` on character lists (keeps empty
pieces, splits the empty string into one empty piece). -/
def splitChars (sep : Char) : List Char → List (List Char)
  | [] => [[]]
  | c :: cs =>
    if c = sep then [] :: splitChars sep cs
    else match splitChars sep cs with
      | g :: gs => (c :: g) :: gs
      | [] => [[c]]

/-- `extractBearerToken`: split the authorization header on spaces and
return the token when the scheme is `bearer` (case-insensitively). -/
def extractBearerToken (authorizationHeader : Option String) : Option String :=
  match authorizationHeader with
  | none => none
  | some h =>
    match (splitChars ' ' h.toList).map (fun l => (⟨l⟩ : String)) with
    | [] => none
    | [_] => none
    | scheme :: token :: _ =>
      if token = "" then none
      else if (⟨lowerList scheme.toList⟩ : String) = "bearer" then some token
      else none

/-- The provided key as `validateApiKey` assembles it: header chain
with `||` fallbacks, then body fields, then `.trim()`. -/
def providedKeyOf (req : WebhookReq) : String :=
  let headerKey :=
    jsOrO req.headers.xEvolutionApikey
      (jsOrO req.headers.xApiKey
        (jsOrO req.headers.apikeyHeader
          (extractBearerToken req.headers.authorization)))
  let payloadKey := jsOrO req.bodyApikey req.bodyApiKey
  jsTrim ((jsOrO headerKey payloadKey).getD "")

/-- `validateApiKey` succeeds (does not throw). -/
def validateApiKeyOk (expectedApiKey : Option String) (req : WebhookReq) : Bool :=
  if ¬ truthyS expectedApiKey then true
  else
    let provided := providedKeyOf req
    provided != "" && provided == expectedApiKey.getD ""

/-- `extractEventFromPath`: strip one leading slash, empty for `/`. -/
def extractEventFromPath (pathname : String) : String :=
  if pathname = "" ∨ pathname = "/" then ""
  else match pathname.toList with
    | '/' :: rest => ⟨rest⟩
    | cs => ⟨cs⟩

def isLowerAlnum (c : Char) : Bool :=
  (decide ('a' ≤ c) && decide (c ≤ 'z')) || (decide ('0' ≤ c) && decide (c ≤ '9'))

/-- Replace maximal runs of non-`[a-z0-9]` by single dots; the Boolean
argument records whether the previous character was part of such a run. -/
def dotCollapseAux : Bool → List Char → List Char
  | _, [] => []
  | prevSep, c :: cs =>
    if isLowerAlnum c then c :: dotCollapseAux false cs
    else if prevSep then dotCollapseAux true cs
    else '.' :: dotCollapseAux true cs

/-- Replace maximal runs of non-`[a-z0-9]` by single dots. -/
def dotCollapse (cs : List Char) : List Char := dotCollapseAux false cs

/-- `normalizeEventName`: lowercase, collapse punctuation runs to dots,
strip a leading and a trailing dot. -/
def normalizeEventName (eventRaw : String) : String :=
  if eventRaw = "" then ""
  else
    let collapsed := dotCollapse (lowerList eventRaw.toList)
    let noLead := match collapsed with
      | '.' :: rest => rest
      | cs => cs
    let noTrail := match noLead.reverse with
      | '.' :: rest => rest.reverse
      | _ => noLead
    ⟨noTrail⟩

/-- Outcome of `WebhookHandler.handle`: either the 401 rejection, the
400 missing-event response, or a dispatch of the normalised event (the
only path on which any event handler, including `handleMessagesUpsert`,
can run). -/
inductive HandleOutcome where
  | unauthorized
  | badRequest
  | dispatched (event : String)
deriving Repr, DecidableEq

/-- Embedding of `WebhookHandler.handle`. -/
def webhookHandle (expectedApiKey : Option String) (req : WebhookReq) : HandleOutcome :=
  let event := normalizeEventName
    ((jsOrO req.bodyEvent (some (extractEventFromPath req.path))).getD "")
  if ¬ validateApiKeyOk expectedApiKey req then .unauthorized
  else if event = "" then .badRequest
  else .dispatched event

/-- Specification-side reading of the claim: the first truthy candidate
among the accepted key locations, in the order the code consults them. -/
def specFirstTruthyKey (req : WebhookReq) : Option String :=
  (([req.headers.xEvolutionApikey, req.headers.xApiKey, req.headers.apikeyHeader,
     extractBearerToken req.headers.authorization,
     req.bodyApikey, req.bodyApiKey]).find? truthyS).bind id

/-! ### C8 — lead-capture rate limiting

Embedding of `checkRateLimit` and the `POST /cadastrar` handler in
`src/routes/lead.routes.ts`.  The map is keyed by IP; we model the record
of a single IP. -/

structure RateRec where
  count : Nat
  timestamp : Nat
deriving Repr, DecidableEq

/-- `checkRateLimit` for one IP: returns whether the request is allowed
together with the updated record. -/
def checkRateLimit (rec? : Option RateRec) (now : Nat) : Bool × RateRec :=
  match rec? with
  | none => (true, ⟨1, now⟩)
  | some r =>
    if r.timestamp + 60000 < now then (true, ⟨1, now⟩)
    else
      let c := r.count + 1
      (decide (c ≤ 5), ⟨c, r.timestamp⟩)

/-- Accept/reject decisions for a sequence of arrival times of one IP,
starting from a given record state. -/
def processArrivals : Option RateRec → List Nat → List Bool
  | _, [] => []
  | st, t :: ts =>
    let (ok, r) := checkRateLimit st t
    ok :: processArrivals (some r) ts

/-- Specification-side sliding-window count: the number of arrivals
(of the whole sequence) lying in the one-minute window ending at `t`. -/
def arrivalsInWindow (times : List Nat) (t : Nat) : Nat :=
  (times.filter (fun x => decide (x ≤ t) && decide (t < x + 60000))).length

structure LeadBody where
  nome : Option String
  email : Option String
  telefone : Option String
  feedback : Option String
deriving Repr, DecidableEq

/-- The email regex of the route, `^[^\s@]+@[^\s@]+\.[^\s@]+$`: exactly
one `@`, non-empty space-free local part, and a domain part containing a
dot that has at least one character on each side. -/
def emailRegexOk (s : String) : Bool :=
  let ok : Char → Bool := fun c => !c.isWhitespace && c != '@'
  match s.toList.splitOn '@' with
  | [a, b] =>
    decide (a ≠ []) && a.all ok && decide (b ≠ []) && b.all ok &&
    ((b.drop 1).dropLast.contains '.')
  | _ => false

/-- Embedding of the `POST /cadastrar` handler up to the persistence
call: the HTTP status it answers with, the updated rate-limit record for
the caller's IP, and whether the lead-persistence call is reached. -/
def leadCadastrar (rec? : Option RateRec) (now : Nat) (body : LeadBody) :
    Nat × Option RateRec × Bool :=
  let (ok, r) := checkRateLimit rec? now
  if ¬ ok then (429, some r, false)
  else if ¬ (truthyS body.nome && truthyS body.email) then (400, some r, false)
  else if (body.nome.getD "").length > 255 ∨ (body.email.getD "").length > 255 then
    (400, some r, false)
  else if truthyS body.feedback ∧ (body.feedback.getD "").length > 5000 then
    (400, some r, false)
  else if ¬ emailRegexOk (body.email.getD "") then (400, some r, false)
  else (201, some r, true)

/-! ### C6 — scheduled-notification retry bookkeeping

Embedding of `marcarNotificacaoErro` and the sweeper's selection query
(`notificacoes_prontas_envio` view, `limit(50)`) from
`src/services/NotificationService.ts` and the SQL schema. -/

structure NotifRow where
  id : Nat
  status : String
  tentativas : Nat
  enviar_em : Nat
  erro_mensagem : Option String
  recorrente : Bool
  intervalo_dias : Option Nat
deriving Repr, DecidableEq

/-- `marcarNotificacaoErro`: read the row's retry counter, increment it,
and update status and reschedule time.  When the counter reaches 3 the
status becomes `erro` and `enviar_em` is left unchanged (the update sends
`undefined` for it); below 3 the status stays `pendente` and the row is
rescheduled five minutes from now. -/
def marcarNotificacaoErro (table : List NotifRow) (nid : Nat) (erro : String)
    (now : Nat) : List NotifRow :=
  let tentativasOld := match table.find? (fun r => r.id == nid) with
    | some r => r.tentativas
    | none => 0
  let tentativas := tentativasOld + 1
  table.map (fun r =>
    if r.id == nid then
      { r with
        tentativas := tentativas
        erro_mensagem := some erro
        status := if tentativas ≥ 3 then "erro" else "pendente"
        enviar_em := if tentativas < 3 then now + 5 * msPerMinute else r.enviar_em }
    else r)

/-- Insertion into a list sorted by `enviar_em` ascending. -/
def insertByEnviarEm (x : NotifRow) : List NotifRow → List NotifRow
  | [] => [x]
  | y :: ys =>
    if x.enviar_em ≤ y.enviar_em then x :: y :: ys
    else y :: insertByEnviarEm x ys

/-- Sorting by `enviar_em` ascending (the view's `ORDER BY`). -/
def sortByEnviarEm (l : List NotifRow) : List NotifRow :=
  l.foldr insertByEnviarEm []

/-- The `notificacoes_prontas_envio` view: pending rows whose
`enviar_em` is due, ordered by `enviar_em`. -/
def notificacoesProntasEnvio (table : List NotifRow) (now : Nat) : List NotifRow :=
  sortByEnviarEm (table.filter (fun r => r.status == "pendente" && decide (r.enviar_em ≤ now)))

/-- The rows the sweeper `processarNotificacoesPendentes` processes in
one tick: the view limited to 50 rows. -/
def sweeperSelection (table : List NotifRow) (now : Nat) : List NotifRow :=
  (notificacoesProntasEnvio table now).take 50

/-! ### C7 — contact upsert

Embedding of `ContatoRepository.salvarContato` and the automatic contact
save inside `AssistantOrchestrator.handleCriarOS`. -/

structure ContatoRec where
  id : Nat
  usuario_id : String
  nome : String
  telefone : String
  email : Option String
  observacoes : Option String
  favorito : Bool
deriving Repr, DecidableEq

structure ContatoInput where
  usuario_id : String
  nome : String
  telefone : String
  email : Option String
  observacoes : Option String
  /-- `none` models the `favorito` argument being `undefined`. -/
  favorito : Option Bool
deriving Repr, DecidableEq

structure ContatoState where
  table : List ContatoRec
  nextId : Nat
deriving Repr, DecidableEq

/-- The rows matching a `(usuario_id, telefone-digits)` pair. -/
def pairRows (table : List ContatoRec) (uid tel : String) : List ContatoRec :=
  table.filter (fun r => r.usuario_id == uid && r.telefone == tel)

/-- The supabase `update` payload of `salvarContato` applied to the row
with the found id: fields passed as `undefined` are dropped from the
payload and keep their stored value; `usuario_id` and `telefone` are not
part of the payload. -/
def contatoUpdateFn (d : ContatoInput) (rid : Nat) (row : ContatoRec) : ContatoRec :=
  if row.id == rid then
    { row with
      nome := d.nome
      email := match d.email with | some e => some e | none => row.email
      observacoes := match d.observacoes with | some o => some o | none => row.observacoes
      favorito := match d.favorito with | some b => b | none => row.favorito }
  else row

/-- The row inserted by `salvarContato` when no single match exists. -/
def contatoNewRow (d : ContatoInput) (nid : Nat) : ContatoRec :=
  { id := nid
    usuario_id := d.usuario_id
    nome := d.nome
    telefone := digitsOnly d.telefone
    email := d.email
    observacoes := d.observacoes
    favorito := d.favorito.getD false }

/-- `salvarContato`: normalise the phone to digits, look the pair up
(`.single()` succeeds only when exactly one row matches; its error is
ignored, so zero or several matches both take the insert branch), then
update or insert. -/
def salvarContato (st : ContatoState) (d : ContatoInput) : ContatoState :=
  match pairRows st.table d.usuario_id (digitsOnly d.telefone) with
  | [r] => { st with table := st.table.map (contatoUpdateFn d r.id) }
  | _ => { table := st.table ++ [contatoNewRow d st.nextId], nextId := st.nextId + 1 }

/-- The automatic contact save of `handleCriarOS`: performed only when
both client name and client phone are present (JS-truthy). -/
def criarOSSalvarContato (st : ContatoState) (userId : String)
    (clienteNome clienteTelefone : Option String) (clienteEmail : Option String)
    (numeroOS : String) : ContatoState :=
  if truthyS clienteNome && truthyS clienteTelefone then
    salvarContato st {
      usuario_id := userId
      nome := clienteNome.getD ""
      telefone := clienteTelefone.getD ""
      email := clienteEmail
      observacoes := some ("Cliente da OS " ++ numeroOS)
      favorito := none }
  else st

/-- Invariant: at most one contact row per `(usuario_id, telefone)` pair. -/
def contatoPairUnique (st : ContatoState) : Prop :=
  ∀ uid tel, (pairRows st.table uid tel).length ≤ 1

/-! ### A small JSON model for handler results -/

inductive JVal where
  | jnull
  | jbool (b : Bool)
  | jnum (n : Int)
  | jstr (s : String)
  | jarr (xs : List JVal)
  | jobj (fields : List (String × JVal))
deriving Repr

def lookupField : List (String × JVal) → String → Option JVal
  | [], _ => none
  | (k, v) :: rest, key => if k == key then some v else lookupField rest key

/-- Field access `v.key`; `none` models `undefined`. -/
def getField (v : JVal) (key : String) : Option JVal :=
  match v with
  | .jobj fs => lookupField fs key
  | _ => none

/-- JS truthiness of a possibly-undefined value. -/
def jsTruthy : Option JVal → Bool
  | none => false
  | some .jnull => false
  | some (.jbool b) => b
  | some (.jnum n) => n != 0
  | some (.jstr s) => s != ""
  | some (.jarr _) => true
  | some (.jobj _) => true

def replaceField : List (String × JVal) → String → JVal → List (String × JVal)
  | [], key, x => [(key, x)]
  | (k, v) :: rest, key, x =>
    if k == key then (key, x) :: rest else (k, v) :: replaceField rest key x

/-- The spread-with-override `{...v, key: x}` on objects. -/
def setField (v : JVal) (key : String) (x : JVal) : JVal :=
  match v with
  | .jobj fs => .jobj (replaceField fs key x)
  | _ => v

/-- Whether a field holds an array (`Array.isArray`). -/
def fieldIsArray (v : JVal) (key : String) : Bool :=
  match getField v key with
  | some (.jarr _) => true
  | _ => false

/-! ### C2 / C3 / C9 — tool-call execution

Embedding of `AssistantOrchestrator.executeFunctions`,
`aplicarTemplateVisual` and `traduzirErroParaUsuario`.  The individual
handler bodies perform awaited external calls; they are abstracted as an
environment mapping a known tool name and its arguments to either a
returned result or a thrown error message. -/

structure ToolCall where
  id : String
  name : String
  arguments : JVal
deriving Repr

inductive HandlerOutcome where
  | ok (result : JVal)
  | thrown (message : String)
deriving Repr

/-- The case labels of the `switch (toolCall.name)` dispatch table. -/
def knownTools : List String :=
  ["criar_ordem_servico", "consultar_ordens_servico",
   "atualizar_status_ordem_servico", "atualizar_ordem_servico",
   "adicionar_pecas_ordem_servico", "gerar_pdf_ordem_servico",
   "obter_estatisticas_usuario", "buscar_ordem_servico_por_criterio",
   "obter_totalizadores", "listar_minhas_os",
   "obter_detalhes_completos_os", "obter_resumo_financeiro",
   "agendar_notificacao", "criar_automacao",
   "listar_notificacoes_agendadas", "cancelar_notificacao",
   "buscar_contato", "enviar_pdf_os_para_contato",
   "enviar_mensagem_whatsapp", "salvar_contato",
   "listar_contatos", "buscar_contato_salvo"]

/-- The fixed per-tool apology table of `traduzirErroParaUsuario`. -/
def mensagensPadrao : List (String × String) :=
  [("criar_ordem_servico", "Não consegui criar a ordem de serviço. Vamos tentar novamente?"),
   ("consultar_ordens_servico", "Não consegui buscar as ordens de serviço no momento. Tente novamente em instantes."),
   ("atualizar_status_ordem_servico", "Não consegui atualizar o status. Verifique se o número da OS está correto."),
   ("atualizar_ordem_servico", "Não consegui atualizar a ordem de serviço. Tente novamente."),
   ("adicionar_pecas_ordem_servico", "Não consegui adicionar as peças. Verifique os dados e tente novamente."),
   ("gerar_pdf_ordem_servico", "Não consegui gerar o PDF. Verifique se a OS existe."),
   ("obter_estatisticas_usuario", "Não consegui obter as estatísticas no momento."),
   ("buscar_ordem_servico_por_criterio", "Não encontrei resultados para sua busca."),
   ("obter_totalizadores", "Não consegui calcular os totalizadores no momento."),
   ("listar_minhas_os", "Não consegui listar suas ordens de serviço."),
   ("obter_detalhes_completos_os", "Não consegui obter os detalhes da OS."),
   ("obter_resumo_financeiro", "Não consegui obter o resumo financeiro.")]

def lookupStr : List (String × String) → String → Option String
  | [], _ => none
  | (k, v) :: rest, key => if k == key then some v else lookupStr rest key

/-- `traduzirErroParaUsuario`: fixed apology keyed by tool name with a
generic fallback; the thrown error itself is ignored (`_error`). -/
def traduzirErroParaUsuario (nomeFuncao : String) : String :=
  match lookupStr mensagensPadrao nomeFuncao with
  | some m => m
  | none => "Ops! Algo não saiu como esperado. Pode tentar novamente?"

/-- The formatting functions of `WhatsAppMessageTemplates` used by
`aplicarTemplateVisual`, abstracted as pure string producers. -/
structure Templates where
  formatarListaOS : JVal → String
  formatarTotalizadores : JVal → String
  formatarResumoFinanceiro : JVal → String
  formatarDetalhesOS : JVal → String
  formatarConfirmacaoCriacaoOS : JVal → String
  formatarEstatisticas : JVal → String
  formatarSucesso : String → Option JVal → String

/-- `resultado.pecas?.length || 0`. -/
def pecasLen (resultado : JVal) : Nat :=
  match getField resultado "pecas" with
  | some (.jarr xs) => xs.length
  | _ => 0

/-- `aplicarTemplateVisual`: error results pass through unchanged;
otherwise a per-tool template may attach `mensagem_formatada`. -/
def aplicarTemplateVisual (tmpl : Templates) (nomeFuncao : String)
    (resultado : JVal) : JVal :=
  if (!(jsTruthy (getField resultado "success")) &&
      jsTruthy (getField resultado "error")) = true then resultado
  else if (nomeFuncao == "consultar_ordens_servico" ||
           nomeFuncao == "listar_minhas_os" ||
           nomeFuncao == "buscar_ordem_servico_por_criterio") = true then
    if (jsTruthy (getField resultado "ordens") && fieldIsArray resultado "ordens") = true then
      setField resultado "mensagem_formatada"
        (.jstr (tmpl.formatarListaOS ((getField resultado "ordens").getD .jnull)))
    else resultado
  else if nomeFuncao == "obter_totalizadores" then
    if jsTruthy (getField resultado "totalizadores") then
      setField resultado "mensagem_formatada"
        (.jstr (tmpl.formatarTotalizadores ((getField resultado "totalizadores").getD .jnull)))
    else resultado
  else if nomeFuncao == "obter_resumo_financeiro" then
    if jsTruthy (getField resultado "resumo_financeiro") then
      setField resultado "mensagem_formatada"
        (.jstr (tmpl.formatarResumoFinanceiro ((getField resultado "resumo_financeiro").getD .jnull)))
    else resultado
  else if nomeFuncao == "obter_detalhes_completos_os" then
    if jsTruthy (getField resultado "ordem_servico") then
      setField resultado "mensagem_formatada"
        (.jstr (tmpl.formatarDetalhesOS ((getField resultado "ordem_servico").getD .jnull)))
    else resultado
  else if nomeFuncao == "criar_ordem_servico" then
    if jsTruthy (getField resultado "ordem_servico") then
      setField resultado "mensagem_formatada"
        (.jstr (tmpl.formatarConfirmacaoCriacaoOS ((getField resultado "ordem_servico").getD .jnull)))
    else resultado
  else if nomeFuncao == "obter_estatisticas_usuario" then
    if jsTruthy (getField resultado "estatisticas") then
      setField resultado "mensagem_formatada"
        (.jstr (tmpl.formatarEstatisticas ((getField resultado "estatisticas").getD .jnull)))
    else resultado
  else if (nomeFuncao == "atualizar_status_ordem_servico" ||
           nomeFuncao == "atualizar_ordem_servico") = true then
    if jsTruthy (getField resultado "success") then
      setField resultado "mensagem_formatada"
        (.jstr (tmpl.formatarSucesso "Ordem de serviço atualizada!" (getField resultado "mensagem")))
    else resultado
  else if nomeFuncao == "adicionar_pecas_ordem_servico" then
    if jsTruthy (getField resultado "success") then
      setField resultado "mensagem_formatada"
        (.jstr (tmpl.formatarSucesso "Peças adicionadas com sucesso!"
          (some (.jstr (toString (pecasLen resultado) ++ " peça(s) registrada(s)")))))
    else resultado
  else if nomeFuncao == "gerar_pdf_ordem_servico" then
    if (jsTruthy (getField resultado "success") && jsTruthy (getField resultado "pdf_url")) = true then
      setField resultado "mensagem_formatada"
        (.jstr (tmpl.formatarSucesso "📄 PDF gerado com sucesso!" (some (.jstr "Vou enviar o documento para você agora."))))
    else resultado
  else resultado

structure ToolCallResult where
  toolCallId : String
  result : JVal
deriving Repr

/-- The handler environment: the behaviour of the `this.handleX`
dispatch targets for the known tool names. -/
def HandlerEnv : Type := String → JVal → HandlerOutcome

/-- The per-iteration body of the `for` loop of `executeFunctions`: the
`try`/`catch` around dispatch and template application.  An unknown name
takes the `default` branch of the `switch` and calls no handler. -/
def execOne (env : HandlerEnv) (tmpl : Templates) (tc : ToolCall) : ToolCallResult :=
  if tc.name ∈ knownTools then
    match env tc.name tc.arguments with
    | .ok r => ⟨tc.id, aplicarTemplateVisual tmpl tc.name r⟩
    | .thrown _ =>
      ⟨tc.id, .jobj [("success", .jbool false),
                     ("error", .jstr (traduzirErroParaUsuario tc.name)),
                     ("detalhes", .jstr "Ocorreu um erro ao processar sua solicitação.")]⟩
  else
    ⟨tc.id, aplicarTemplateVisual tmpl tc.name
      (.jobj [("success", .jbool false), ("error", .jstr "Função não implementada")])⟩

/-- `executeFunctions`: the loop accumulating one result per requested
call, in order. -/
def executeFunctions (env : HandlerEnv) (tmpl : Templates) :
    List ToolCall → List ToolCallResult
  | [] => []
  | tc :: rest => execOne env tmpl tc :: executeFunctions env tmpl rest

/-! ### C3 — the `enviar_pdf_os_para_contato` handler

Embedding of `handleEnviarPdfOsParaContato`
(`src/services/AssistantOrchestrator.ts` lines 925–1053): the exact
control flow of the handler over abstract repository / gateway calls. -/

structure OSRec where
  id : Nat
  numero_os : String
  usuario_id : String
  cliente_nome : String
  cliente_telefone : Option String
  criado_em : String
  titulo : Option String
  descricao : String
  valor_estimado : Option Int
  status : String
  observacoes : Option String
deriving Repr

structure SendMediaArgs where
  number : String
  mediatype : String
  media : String
  fileName : Option String
  caption : Option String
deriving Repr

/-- The awaited external calls performed by the handler. -/
structure PdfToolDeps where
  getOrdemServicoByNumero : String → Except String (Option OSRec)
  buscarContatoPorNome : String → String → Except String (List ContatoRec)
  generateOS : OSRec → Except String String
  readFileBase64 : String → Except String String
  sendTextMessage : String → String → Except String Unit
  sendMedia : SendMediaArgs → Except String Unit
  unlinkFile : String → Except String Unit

structure EnviarPdfArgs where
  numero_os : String
  nome_contato : String
  mensagem_adicional : Option String
deriving Repr

/-- `os.numero_os || os.id`. -/
def osLabel (os : OSRec) : String :=
  if os.numero_os != "" then os.numero_os else toString os.id

/-- The remoteJid computed from a contact's phone: digits only, `55`
country code when an 11-digit number lacks it, then the
`@s.whatsapp.net` suffix (digits never contain `@`, but the check is
kept as in the source). -/
def contatoRemoteJid (telefone : String) : String :=
  let digits := digitsOnly telefone
  let withCountry :=
    if (!hasPre "55".toList digits.toList) = true ∧ digits.length = 11
    then "55" ++ digits else digits
  if strContains withCountry "@" then withCountry
  else withCountry ++ "@s.whatsapp.net"

/-- `handleEnviarPdfOsParaContato`.  The inner `try` around `sendMedia`
re-throws with a `Falha ao enviar PDF:` prefix; the outer `catch` turns
any thrown error into a result whose `error` string embeds the thrown
message after the `Não consegui enviar o PDF:` prefix. -/
def handleEnviarPdfOsParaContato (deps : PdfToolDeps) (args : EnviarPdfArgs) : JVal :=
  let body : Except String JVal := do
    let os? ← deps.getOrdemServicoByNumero args.numero_os
    match os? with
    | none =>
      pure (.jobj [("success", .jbool false),
        ("error", .jstr ("Ordem de serviço " ++ args.numero_os ++ " não encontrada"))])
    | some os => do
      let contatos ← deps.buscarContatoPorNome os.usuario_id args.nome_contato
      match contatos with
      | [] =>
        pure (.jobj [("success", .jbool false),
          ("error", .jstr ("Contato \"" ++ args.nome_contato ++ "\" não encontrado. Você pode salvar o contato primeiro?"))])
      | contato :: _ => do
        let pdfFilePath ← deps.generateOS os
        let pdfBase64 ← deps.readFileBase64 pdfFilePath
        let fileName := "OS-" ++ osLabel os ++ ".pdf"
        let remoteJid := contatoRemoteJid contato.telefone
        match args.mensagem_adicional with
        | some m => if m != "" then deps.sendTextMessage remoteJid m else pure ()
        | none => pure ()
        let mediaArgs : SendMediaArgs :=
          { number := remoteJid, mediatype := "document", media := pdfBase64,
            fileName := some fileName,
            caption := some ("📋 Ordem de Serviço " ++ osLabel os) }
        match deps.sendMedia mediaArgs with
        | .ok _ => pure ()
        | .error mediaError => throw ("Falha ao enviar PDF: " ++ mediaError)
        deps.unlinkFile pdfFilePath
        pure (.jobj [("success", .jbool true),
          ("mensagem", .jstr ("PDF da OS " ++ os.numero_os ++ " enviado com sucesso para " ++ contato.nome ++ " (" ++ contato.telefone ++ ")!")),
          ("contato", .jobj [("nome", .jstr contato.nome), ("telefone", .jstr contato.telefone)]),
          ("os", .jobj [("numero_os", .jstr os.numero_os), ("cliente", .jstr os.cliente_nome)])])
  match body with
  | .ok r => r
  | .error e =>
    .jobj [("success", .jbool false),
           ("error", .jstr ("Não consegui enviar o PDF: " ++ e))]

/-! ### C1 — conversation-history bounding

Embedding of the history management of `processUserMessage`
(`src/services/AssistantOrchestrator.ts` lines 64–204): retrieval,
hydration, the `slice(-20)` truncation, and the appends of the current
turn before the map is updated. -/

inductive HMsg where
  | userMsg (content : String)
  | assistantMsg (content : Option String)
  | assistantToolMsg (content : Option String) (toolCalls : List ToolCall)
  | toolMsg (toolCallId : String) (result : JVal)
  | systemMsg (content : String)

/-- The classifier's reply: optional text plus requested tool calls
(the empty list models the absent/empty `toolCalls`). -/
structure AiResponse where
  response : Option String
  toolCalls : List ToolCall

/-- `criarMensagemContexto`. -/
def criarMensagemContexto (mensagemUsuario : String)
    (toolResults : List ToolCallResult) : Option String :=
  let temFormatada := toolResults.any (fun r => jsTruthy (getField r.result "mensagem_formatada"))
  if temFormatada then
    some "🎨 IMPORTANTE: Use as mensagens_formatadas que foram fornecidas nos resultados. Elas já estão perfeitamente formatadas. Adicione apenas uma breve introdução amigável e cole a mensagem_formatada completa."
  else
    let lower := lowerList mensagemUsuario.toList
    let perguntasContexto := ["qual", "quais", "que", "quando", "quanto", "onde", "como"]
    let temPerguntaContexto := perguntasContexto.any (fun p => occursIn p.toList lower)
    if temPerguntaContexto ∧ mensagemUsuario.length < 50 then
      some "📚 CONTEXTO: O usuário fez uma pergunta curta. Revise o histórico da conversa para entender o contexto completo. Provavelmente ele está se referindo a algo que já foi mencionado."
    else none

/-- The `slice(-20)` truncation applied when the loaded history exceeds
20 entries. -/
def truncateHistory (h : List HMsg) : List HMsg :=
  if h.length > 20 then h.drop (h.length - 20) else h

/-- The in-memory history stored for the conversation key when
`processUserMessage` completes successfully.  `stored` is the map entry
before the call, `dbHistory` the hydration result used when it is empty,
and `finalResponse` the text of the closing LLM call on the tool path. -/
def processUserMessageHistory (stored dbHistory : List HMsg) (message : String)
    (ai : AiResponse) (env : HandlerEnv) (tmpl : Templates)
    (finalResponse : String) : List HMsg :=
  let loaded := if stored.isEmpty then dbHistory else stored
  let history := truncateHistory loaded
  if ai.toolCalls.isEmpty then
    history ++ [.userMsg message, .assistantMsg ai.response]
  else
    let toolResults := executeFunctions env tmpl ai.toolCalls
    let updated := history ++
      [.userMsg message, .assistantToolMsg ai.response ai.toolCalls] ++
      toolResults.map (fun tr => HMsg.toolMsg tr.toolCallId tr.result)
    let updated2 := match criarMensagemContexto message toolResults with
      | some c => updated ++ [.systemMsg c]
      | none => updated
    updated2 ++ [.assistantMsg (some finalResponse)]

/-! ### C4 — natural-language date parsing

Embedding of `parsearDataHora`
(`src/services/AssistantOrchestrator.ts` lines 1276–1414).  Times are
natural-number milliseconds of the local clock; `new Date(string)` is
modelled by a strict ISO parser (`jsDateParse`) covering the ISO forms
the host reliably accepts, for dates from 1970 onwards. -/

def digitVal (c : Char) : Nat := c.toNat - '0'.toNat

def natOfDigits (ds : List Char) : Nat :=
  ds.foldl (fun a c => a * 10 + digitVal c) 0

/-- Number of leap years before year `y` (counting from year 1). -/
def leapCountBefore (y : Nat) : Nat :=
  (y - 1) / 4 - (y - 1) / 100 + (y - 1) / 400

def isLeapYear (y : Nat) : Bool :=
  (y % 4 == 0 && y % 100 != 0) || y % 400 == 0

/-- Days from the epoch 1970-01-01 to the start of year `y ≥ 1970`. -/
def daysBeforeYear (y : Nat) : Nat :=
  (y - 1970) * 365 + (leapCountBefore y - leapCountBefore 1970)

def monthDays (leap : Bool) : List Nat :=
  [31, if leap then 29 else 28, 31, 30, 31, 30, 31, 31, 30, 31, 30, 31]

def daysBeforeMonth (leap : Bool) (m : Nat) : Nat :=
  ((monthDays leap).take (m - 1)).foldl (· + ·) 0

def daysInMonth (leap : Bool) (m : Nat) : Nat :=
  ((monthDays leap).drop (m - 1)).headD 31

/-- Epoch milliseconds of a calendar date (valid for `y ≥ 1970`). -/
def civilToMs (y m d : Nat) : Nat :=
  (daysBeforeYear y + daysBeforeMonth (isLeapYear y) m + (d - 1)) * msPerDay

def digit2 (a b : Char) : Nat := digitVal a * 10 + digitVal b

/-- The epoch milliseconds of an ISO timestamp with in-range fields. -/
def isoMs (y m d hh nn ss : Nat) : Nat :=
  civilToMs y m d + hh * msPerHour + nn * msPerMinute + ss * 1000

/-- Strict model of `new Date(s)` for the ISO shapes
`YYYY-MM-DD[THH:MM[:SS][Z]]` with in-range fields and year ≥ 1970; any
other input is treated as an invalid date (`NaN`).  Date-only and
zoned forms are UTC and unzoned times local; with the fixed-offset
local clock of this embedding the two coincide. -/
def jsDateParse (cs : List Char) : Option Nat :=
  match cs with
  | y1 :: y2 :: y3 :: y4 :: '-' :: m1 :: m2 :: '-' :: d1 :: d2 :: rest =>
    if ([y1, y2, y3, y4, m1, m2, d1, d2].all Char.isDigit) = true then
      if 1970 ≤ natOfDigits [y1, y2, y3, y4] ∧ 1 ≤ digit2 m1 m2 ∧ digit2 m1 m2 ≤ 12 ∧
          1 ≤ digit2 d1 d2 ∧
          digit2 d1 d2 ≤ daysInMonth (isLeapYear (natOfDigits [y1, y2, y3, y4])) (digit2 m1 m2) then
        match rest with
        | [] => some (isoMs (natOfDigits [y1, y2, y3, y4]) (digit2 m1 m2) (digit2 d1 d2) 0 0 0)
        | 'T' :: h1 :: h2 :: ':' :: n1 :: n2 :: rest2 =>
          if ([h1, h2, n1, n2].all Char.isDigit) = true then
            if digit2 h1 h2 ≤ 23 ∧ digit2 n1 n2 ≤ 59 then
              match rest2 with
              | [] => some (isoMs (natOfDigits [y1, y2, y3, y4]) (digit2 m1 m2) (digit2 d1 d2)
                  (digit2 h1 h2) (digit2 n1 n2) 0)
              | ['Z'] => some (isoMs (natOfDigits [y1, y2, y3, y4]) (digit2 m1 m2) (digit2 d1 d2)
                  (digit2 h1 h2) (digit2 n1 n2) 0)
              | ':' :: s1 :: s2 :: rest3 =>
                if (s1.isDigit && s2.isDigit) = true ∧ digit2 s1 s2 ≤ 59 then
                  match rest3 with
                  | [] => some (isoMs (natOfDigits [y1, y2, y3, y4]) (digit2 m1 m2) (digit2 d1 d2)
                      (digit2 h1 h2) (digit2 n1 n2) (digit2 s1 s2))
                  | ['Z'] => some (isoMs (natOfDigits [y1, y2, y3, y4]) (digit2 m1 m2) (digit2 d1 d2)
                      (digit2 h1 h2) (digit2 n1 n2) (digit2 s1 s2))
                  | _ => none
                else none
              | _ => none
            else none
          else none
        | _ => none
      else none
    else none
  | _ => none

/-- The ISO-detection test of the parser:
`dataStr.includes('T') || dataStr.includes('Z') || /^\d{4}-\d{2}-\d{2}/`. -/
def isoDetect (cs : List Char) : Bool :=
  cs.contains 'T' || cs.contains 'Z' ||
  (match cs with
   | a :: b :: c :: d :: '-' :: e :: f :: '-' :: g :: h :: _ =>
     [a, b, c, d, e, f, g, h].all Char.isDigit
   | _ => false)

inductive TimeUnit where
  | minuto
  | hora
  | dia
deriving Repr, DecidableEq

def timeUnitMs : TimeUnit → Nat
  | .minuto => msPerMinute
  | .hora => msPerHour
  | .dia => msPerDay

/-- Attempt the `daqui\s+(\d+)\s*(minuto|hora|dia)s?` pattern at the
head of `cs` (already lowercased). -/
def matchDaquiAt (cs : List Char) : Option (Nat × TimeUnit) :=
  if hasPre "daqui".toList cs then
    let rest := cs.drop 5
    let ws := rest.takeWhile Char.isWhitespace
    if ws.isEmpty then none
    else
      let rest2 := rest.drop ws.length
      let digits := rest2.takeWhile Char.isDigit
      if digits.isEmpty then none
      else
        let rest3 := (rest2.drop digits.length).dropWhile Char.isWhitespace
        if hasPre "minuto".toList rest3 then some (natOfDigits digits, .minuto)
        else if hasPre "hora".toList rest3 then some (natOfDigits digits, .hora)
        else if hasPre "dia".toList rest3 then some (natOfDigits digits, .dia)
        else none
  else none

/-- Leftmost match of the `daqui` pattern. -/
def findDaqui : List Char → Option (Nat × TimeUnit)
  | [] => none
  | c :: cs =>
    match matchDaquiAt (c :: cs) with
    | some r => some r
    | none => findDaqui cs

/-- Minutes part after the hour digits of `/(\d{1,2}):?(\d{2})?h?/`:
an optional colon followed by exactly two digits. -/
def minutesAfter (rest : List Char) : Nat :=
  match rest with
  | ':' :: m1 :: m2 :: _ => if (m1.isDigit && m2.isDigit) = true then digit2 m1 m2 else 0
  | ':' :: _ => 0
  | m1 :: m2 :: _ => if (m1.isDigit && m2.isDigit) = true then digit2 m1 m2 else 0
  | _ => 0

/-- The groups captured at a position whose head is a digit. -/
def matchHoraAt (cs : List Char) : Nat × Nat :=
  match cs with
  | c1 :: c2 :: rest =>
    if c2.isDigit then (digit2 c1 c2, minutesAfter rest)
    else (digitVal c1, minutesAfter (c2 :: rest))
  | [c1] => (digitVal c1, 0)
  | [] => (0, 0)

/-- Leftmost match of the unanchored `/(\d{1,2}):?(\d{2})?h?/`: the
first digit starts the match, and all later parts are optional. -/
def findHora : List Char → Option (Nat × Nat)
  | [] => none
  | c :: cs => if c.isDigit then some (matchHoraAt (c :: cs)) else findHora cs

/-- The anchored `/^(\d{1,2}):?(\d{2})?h?$/`, including the regex
backtracking that lets `130` parse as hour 1, minutes 30. -/
def anchoredHora (cs : List Char) : Option (Nat × Nat) :=
  match cs with
  | [a] => if a.isDigit then some (digitVal a, 0) else none
  | [a, b] =>
    if a.isDigit then
      if b.isDigit then some (digit2 a b, 0)
      else if b = ':' ∨ b = 'h' then some (digitVal a, 0)
      else none
    else none
  | [a, b, c] =>
    if a.isDigit then
      if b.isDigit then
        if c.isDigit then some (digitVal a, digit2 b c)
        else if c = ':' ∨ c = 'h' then some (digit2 a b, 0)
        else none
      else if b = ':' ∧ c = 'h' then some (digitVal a, 0)
      else none
    else none
  | [a, b, c, d] =>
    if a.isDigit then
      if b.isDigit then
        if c = ':' then
          if d = 'h' then some (digit2 a b, 0) else none
        else if (c.isDigit && d.isDigit) = true then some (digit2 a b, digit2 c d)
        else if (c.isDigit : Bool) = true ∧ d = 'h' then some (digitVal a, digit2 b c)
        else none
      else if b = ':' ∧ (c.isDigit && d.isDigit) = true then some (digitVal a, digit2 c d)
      else none
    else none
  | [a, b, c, d, e] =>
    if (a.isDigit && b.isDigit) = true then
      if c = ':' ∧ (d.isDigit && e.isDigit) = true then some (digit2 a b, digit2 d e)
      else if ([c, d].all Char.isDigit) = true ∧ e = 'h' then some (digit2 a b, digit2 c d)
      else none
    else if a.isDigit ∧ b = ':' ∧ (c.isDigit && d.isDigit) = true ∧ e = 'h' then
      some (digitVal a, digit2 c d)
    else none
  | [a, b, c, d, e, f] =>
    if (a.isDigit && b.isDigit) = true ∧ c = ':' ∧ (d.isDigit && e.isDigit) = true ∧ f = 'h' then
      some (digit2 a b, digit2 d e)
    else none
  | _ => none

def diasSemana : List String :=
  ["domingo", "segunda", "terça", "quarta", "quinta", "sexta", "sábado"]

/-- First weekday name (in `diasSemana` order) contained in the
lowercased input, with its index. -/
def findWeekday (lower : List Char) : Option Nat :=
  (List.range 7).find? (fun i =>
    occursIn ((diasSemana.getD i "").toList) lower)

/-- The ISO branch of `parsearDataHora`: a detected, valid ISO date is
returned only when strictly in the future. -/
def isoResultOf (cs : List Char) (agora : Nat) : Option Nat :=
  if isoDetect cs then
    match jsDateParse cs with
    | some t => if t > agora then some t else none
    | none => none
  else none

/-- `(i - diaAtual + 7) % 7 || 7`: days until the next occurrence of
weekday `i`. -/
def diasAteProximo (i diaAtual : Nat) : Nat :=
  if (i + 7 - diaAtual) % 7 = 0 then 7 else (i + 7 - diaAtual) % 7

/-- Today at `h:m` (with `setHours` overflow rolling forward), pushed to
the next day when it is not strictly in the future — the shared logic of
the `hoje` branch and the bare-hour branch. -/
def horaHojeOuAmanha (agora h m : Nat) : Nat :=
  if dayStart agora + h * msPerHour + m * msPerMinute ≤ agora then
    dayStart agora + h * msPerHour + m * msPerMinute + msPerDay
  else dayStart agora + h * msPerHour + m * msPerMinute

/-- The natural-language cascade of `parsearDataHora`, tried when the
ISO branch does not return. -/
def parsearDataHoraNL (cs : List Char) (agora : Nat) : Nat :=
  match findDaqui (lowerList cs) with
  | some (q, u) => agora + q * timeUnitMs u
  | none =>
    if (occursIn "amanhã".toList (lowerList cs) ||
        occursIn "amanha".toList (lowerList cs)) = true then
      match findHora cs with
      | some (h, m) => dayStart agora + msPerDay + h * msPerHour + m * msPerMinute
      | none => dayStart agora + msPerDay + 9 * msPerHour
    else if occursIn "hoje".toList (lowerList cs) then
      match findHora cs with
      | some (h, m) => horaHojeOuAmanha agora h m
      | none => agora + msPerHour
    else
      match findWeekday (lowerList cs) with
      | some i =>
        match findHora cs with
        | some (h, m) =>
          dayStart agora + diasAteProximo i (weekdayOf agora) * msPerDay +
            h * msPerHour + m * msPerMinute
        | none =>
          dayStart agora + diasAteProximo i (weekdayOf agora) * msPerDay + 9 * msPerHour
      | none =>
        match anchoredHora cs with
        | some (h, m) => horaHojeOuAmanha agora h m
        | none => agora + msPerHour

/-- `parsearDataHora`: the ordered pattern cascade.  The surrounding
`try`/`catch` of the source cannot fire in this total embedding. -/
def parsearDataHora (s : String) (agora : Nat) : Nat :=
  match isoResultOf s.toList agora with
  | some t => t
  | none => parsearDataHoraNL s.toList agora

/-! ## Helper lemmas -/

theorem hasPre_sub {pat l : List Char} (h : hasPre pat l = true) :
    ∀ c ∈ pat, c ∈ l := by
  induction pat generalizing l with
  | nil => intro c hc; cases hc
  | cons p ps ih =>
    cases l with
    | nil => simp [hasPre] at h
    | cons x xs =>
      simp only [hasPre, Bool.and_eq_true, beq_iff_eq] at h
      intro c hc
      rcases List.mem_cons.1 hc with rfl | hc
      · exact List.mem_cons.2 (Or.inl h.1)
      · exact List.mem_cons.2 (Or.inr (ih h.2 c hc))

theorem occursIn_sub {pat l : List Char} (h : occursIn pat l = true) :
    ∀ c ∈ pat, c ∈ l := by
  induction l with
  | nil =>
    cases pat with
    | nil => intro c hc; cases hc
    | cons p ps => simp [occursIn, List.isEmpty] at h
  | cons x xs ih =>
    simp only [occursIn, Bool.or_eq_true] at h
    rcases h with h | h
    · exact hasPre_sub h
    · exact fun c hc => List.mem_cons.2 (Or.inr (ih h c hc))

theorem truthyS_false_trim {a : Option String} (h : truthyS a = false) :
    jsTrim (a.getD "") = "" := by
  cases a with
  | none => rfl
  | some s =>
    have hs : s = "" := by simpa [truthyS] using h
    subst hs; rfl

theorem truthyS_true_iff {a : Option String} :
    truthyS a = true ↔ ∃ s, a = some s ∧ s ≠ "" := by
  cases a with
  | none => simp [truthyS]
  | some s => simp [truthyS]

/-! ## C10 — inbound message filtering -/

/-- C10: a `messages.upsert` payload reaches `whatsappHandler.handleMessage`
exactly when it has a `key`, its jid (when present) mentions neither
`@g.us` nor `@broadcast`, it is not `fromMe: true`, and its timestamp is
at most 5 minutes before processing time. -/
theorem C10_message_upsert_filter (data : Option UpsertData) (now : Nat) :
    handleMessageUpsertInvokes data now = true ↔
      ∃ d k, data = some d ∧ d.key = some k ∧
        (∀ j, k.remoteJid = some j →
          strContains j "@g.us" = false ∧
          (strContains j "@broadcast" || strContains j "status@broadcast") = false) ∧
        k.fromMe ≠ some true ∧
        (now : Int) - (upsertTsMs d now : Int) ≤ 5 * 60 * 1000 := by
  cases data with
  | none => simp [handleMessageUpsertInvokes]
  | some d =>
    cases hk : d.key with
    | none => simp [handleMessageUpsertInvokes, hk]
    | some k =>
      simp only [handleMessageUpsertInvokes, hk]
      constructor
      · intro h
        refine ⟨d, k, rfl, hk, ?_⟩
        by_cases h1 : (match k.remoteJid with
            | some j => strContains j "@g.us"
            | none => false) = true
        · rw [if_pos h1] at h; cases h
        · rw [if_neg h1] at h
          by_cases h2 : (match k.remoteJid with
              | some j => strContains j "@broadcast" || strContains j "status@broadcast"
              | none => false) = true
          · rw [if_pos h2] at h; cases h
          · rw [if_neg h2] at h
            by_cases h3 : (k.fromMe == some true) = true
            · rw [if_pos h3] at h; cases h
            · rw [if_neg h3] at h
              refine ⟨?_, ?_, ?_⟩
              · intro j hj
                rw [hj] at h1 h2
                exact ⟨Bool.not_eq_true _ ▸ h1, Bool.not_eq_true _ ▸ h2⟩
              · intro hFm; exact h3 (by rw [hFm]; rfl)
              · by_cases h4 : ((now : Int) - (upsertTsMs d now : Int) > 5 * 60 * 1000)
                · rw [if_pos h4] at h; cases h
                · omega
      · rintro ⟨d', k', hd, hk', hjid, hfm, hts⟩
        injection hd with hd; subst hd
        rw [hk] at hk'; injection hk' with hk'; subst hk'
        have h1 : (match k.remoteJid with
            | some j => strContains j "@g.us"
            | none => false) = false := by
          cases hj : k.remoteJid with
          | none => rfl
          | some j => exact (hjid j hj).1
        have h2 : (match k.remoteJid with
            | some j => strContains j "@broadcast" || strContains j "status@broadcast"
            | none => false) = false := by
          cases hj : k.remoteJid with
          | none => rfl
          | some j => exact (hjid j hj).2
        have h3 : (k.fromMe == some true) = false := by
          cases hb : k.fromMe with
          | none => rfl
          | some b =>
            cases b with
            | true => exact absurd hb hfm
            | false => rfl
        rw [if_neg (by simp [h1]), if_neg (by simp [h2]), if_neg (by simp [h3]),
          if_neg (by omega)]

/-- C10 witness: a fresh direct message passes every filter and reaches
the handler; flipping `fromMe` to `true` drops it. -/
theorem C10_message_upsert_filter_witness :
    handleMessageUpsertInvokes
      (some ⟨some ⟨some "5511999998888@s.whatsapp.net", some false⟩, some 1000⟩)
      (1000 * 1000 + 200000) = true ∧
    handleMessageUpsertInvokes
      (some ⟨some ⟨some "5511999998888@s.whatsapp.net", some true⟩, some 1000⟩)
      (1000 * 1000 + 200000) = false := by
  constructor
  · exact (C10_message_upsert_filter
      (some ⟨some ⟨some "5511999998888@s.whatsapp.net", some false⟩, some 1000⟩)
      (1000 * 1000 + 200000)).2
      ⟨_, _, rfl, rfl, fun j hj => by
        injection hj with hj; subst hj; exact ⟨by rfl, by rfl⟩,
        by decide, by decide⟩
  · decide

/-! ## C5 — webhook API-key validation -/

theorem jsOrO_truthy_left {a b : Option String} (h : truthyS a = true) :
    jsOrO a b = a := by simp [jsOrO, h]

theorem jsOrO_falsy_left {a b : Option String} (h : truthyS a = false) :
    jsOrO a b = b := by simp [jsOrO, h]

/-- The `||` chain of `validateApiKey` selects exactly the first truthy
candidate in the order the code consults the locations. -/
theorem providedKeyOf_eq_firstTruthy (req : WebhookReq) :
    providedKeyOf req =
      (match specFirstTruthyKey req with
       | some k => jsTrim k
       | none => "") := by
  have goal : ∀ a : Option String, truthyS a = true →
      jsTrim (a.getD "") = (match (some a).bind id with
        | some k => jsTrim k
        | none => ("" : String)) := by
    intro a ha
    rcases truthyS_true_iff.1 ha with ⟨s, rfl, _⟩
    rfl
  show jsTrim _ = _
  unfold specFirstTruthyKey
  by_cases t1 : truthyS req.headers.xEvolutionApikey
  · rw [List.find?_cons_of_pos _ t1, jsOrO_truthy_left t1, jsOrO_truthy_left t1]
    exact goal _ t1
  · rw [Bool.not_eq_true] at t1
    rw [List.find?_cons_of_neg _ (by simp [t1]), jsOrO_falsy_left t1]
    by_cases t2 : truthyS req.headers.xApiKey
    · rw [List.find?_cons_of_pos _ t2, jsOrO_truthy_left t2, jsOrO_truthy_left t2]
      exact goal _ t2
    · rw [Bool.not_eq_true] at t2
      rw [List.find?_cons_of_neg _ (by simp [t2]), jsOrO_falsy_left t2]
      by_cases t3 : truthyS req.headers.apikeyHeader
      · rw [List.find?_cons_of_pos _ t3, jsOrO_truthy_left t3, jsOrO_truthy_left t3]
        exact goal _ t3
      · rw [Bool.not_eq_true] at t3
        rw [List.find?_cons_of_neg _ (by simp [t3]), jsOrO_falsy_left t3]
        by_cases t4 : truthyS (extractBearerToken req.headers.authorization)
        · rw [List.find?_cons_of_pos _ t4, jsOrO_truthy_left t4]
          exact goal _ t4
        · rw [Bool.not_eq_true] at t4
          rw [List.find?_cons_of_neg _ (by simp [t4]), jsOrO_falsy_left t4]
          by_cases t5 : truthyS req.bodyApikey
          · rw [List.find?_cons_of_pos _ t5, jsOrO_truthy_left t5]
            exact goal _ t5
          · rw [Bool.not_eq_true] at t5
            rw [List.find?_cons_of_neg _ (by simp [t5]), jsOrO_falsy_left t5]
            by_cases t6 : truthyS req.bodyApiKey
            · rw [List.find?_cons_of_pos _ t6]
              exact goal _ t6
            · rw [Bool.not_eq_true] at t6
              rw [List.find?_cons_of_neg _ (by simp [t6]), List.find?_nil]
              exact truthyS_false_trim t6

/-- C5 counterexample request: a wrong key in the `x-evolution-apikey`
header together with the correct key in the body `apikey` field. -/
def c5Req : WebhookReq :=
  { headers := { xEvolutionApikey := some "wrong", xApiKey := none,
                 apikeyHeader := none, authorization := none }
    bodyEvent := some "messages.upsert"
    bodyApikey := some "secret"
    bodyApiKey := none
    path := "/" }

/-- C5 counterexample: with expected key `secret` configured, a request
carrying the correct key in the accepted body `apikey` location is still
answered 401 (never dispatched), because the wrong value in the
`x-evolution-apikey` header wins the `||` chain. -/
theorem C5_counterexample :
    c5Req.bodyApikey = some "secret" ∧
    providedKeyOf c5Req = "wrong" ∧
    webhookHandle (some "secret") c5Req = .unauthorized := by
  refine ⟨rfl, rfl, rfl⟩

/-- C5 amended: with a configured (truthy) expected key, validation
succeeds iff the first truthy candidate among the accepted locations —
in the order `x-evolution-apikey`, `x-api-key`, `apikey`, Bearer token,
body `apikey`, body `apiKey` — trims to the expected key; a request that
fails this is answered 401 and nothing is dispatched, and a request that
passes is dispatched whenever the normalised event name is non-empty. -/
theorem C5_amended (expected : Option String) (req : WebhookReq)
    (hconf : truthyS expected = true) :
    (validateApiKeyOk expected req = true ↔
      (∃ k, specFirstTruthyKey req = some k ∧
        jsTrim k ≠ "" ∧ jsTrim k = expected.getD "")) ∧
    (validateApiKeyOk expected req = false →
      webhookHandle expected req = .unauthorized) ∧
    (validateApiKeyOk expected req = true →
      ∀ e, normalizeEventName
          ((jsOrO req.bodyEvent (some (extractEventFromPath req.path))).getD "") = e →
        webhookHandle expected req = if e = "" then .badRequest else .dispatched e) := by
  refine ⟨?_, ?_, ?_⟩
  · unfold validateApiKeyOk
    rw [if_neg (by simp [hconf])]
    rw [providedKeyOf_eq_firstTruthy]
    constructor
    · intro h
      cases hf : specFirstTruthyKey req with
      | none => rw [hf] at h; simp at h
      | some k =>
        rw [hf] at h
        simp only [Bool.and_eq_true, bne_iff_ne, ne_eq, beq_iff_eq] at h
        exact ⟨k, rfl, h.1, h.2⟩
    · rintro ⟨k, hf, hne, heq⟩
      rw [hf]
      simp only [Bool.and_eq_true, bne_iff_ne, ne_eq, beq_iff_eq]
      exact ⟨hne, heq⟩
  · intro h
    unfold webhookHandle
    rw [if_pos (by simp [h])]
  · intro h e he
    unfold webhookHandle
    rw [if_neg (by simp [h]), he]

/-- C5 amended, witness: a correct Bearer token passes and the request
is dispatched to `messages.upsert`. -/
theorem C5_amended_witness :
    validateApiKeyOk (some "secret")
      ⟨⟨none, none, none, some "Bearer secret"⟩, some "messages.upsert", none, none, "/"⟩ = true ∧
    webhookHandle (some "secret")
      ⟨⟨none, none, none, some "Bearer secret"⟩, some "messages.upsert", none, none, "/"⟩ =
      .dispatched "messages.upsert" := by
  have h := C5_amended (some "secret")
    ⟨⟨none, none, none, some "Bearer secret"⟩, some "messages.upsert", none, none, "/"⟩
    (by decide)
  have hv : validateApiKeyOk (some "secret")
      ⟨⟨none, none, none, some "Bearer secret"⟩, some "messages.upsert", none, none, "/"⟩ = true :=
    h.1.2 ⟨"secret", by rfl, by decide, by rfl⟩
  exact ⟨hv, by simpa using h.2.2 hv "messages.upsert" (by rfl)⟩

/-! ## C8 — lead-capture rate limiting -/

/-- C8 counterexample arrival times (milliseconds) of one IP. -/
def c8Times : List Nat := [0, 59000, 59100, 59200, 59300, 61000, 61100]

/-- C8 counterexample: the implementation accepts all seven requests,
although the seventh arrives with five earlier arrivals inside its
trailing one-minute window (six in total) — a 5-per-minute sliding
window would have rejected it.  The limiter's window is anchored at the
first request, not sliding. -/
theorem C8_counterexample :
    processArrivals none c8Times =
      [true, true, true, true, true, true, true] ∧
    arrivalsInWindow c8Times 61100 = 6 ∧ 5 < arrivalsInWindow c8Times 61100 := by
  decide

/-- C8 amended: the limiter is a fixed one-minute window anchored at the
first request of the window.  A rate-limited request is answered 429
with no validation or persistence; while the window is open the sixth
and later requests are rejected; the first request after the window
elapses is accepted (resetting the window); and acceptance happens only
by reset or while the in-window count is at most 5. -/
theorem C8_amended :
    (∀ rec? now body, (checkRateLimit rec? now).1 = false →
       leadCadastrar rec? now body = (429, some (checkRateLimit rec? now).2, false)) ∧
    (∀ r now body, now ≤ r.timestamp + 60000 → 5 ≤ r.count →
       (leadCadastrar (some r) now body).1 = 429 ∧
       (leadCadastrar (some r) now body).2.2 = false) ∧
    (∀ r now, r.timestamp + 60000 < now →
       (checkRateLimit (some r) now).1 = true) ∧
    (∀ r now, (checkRateLimit (some r) now).1 = true →
       r.timestamp + 60000 < now ∨ r.count + 1 ≤ 5) := by
  refine ⟨?_, ?_, ?_, ?_⟩
  · intro rec? now body h
    rcases hc : checkRateLimit rec? now with ⟨ok, r⟩
    have hok : ok = false := by rw [hc] at h; exact h
    subst hok
    unfold leadCadastrar
    rw [hc]
    simp
  · intro r now body hwin hcount
    have hRL : checkRateLimit (some r) now = (false, ⟨r.count + 1, r.timestamp⟩) := by
      simp only [checkRateLimit]
      rw [if_neg (by omega)]
      simp only [Prod.mk.injEq, decide_eq_false_iff_not]
      exact ⟨by omega, trivial⟩
    unfold leadCadastrar
    rw [hRL]
    simp
  · intro r now h
    simp only [checkRateLimit]
    rw [if_pos h]
  · intro r now h
    simp only [checkRateLimit] at h
    by_cases hw : r.timestamp + 60000 < now
    · exact Or.inl hw
    · rw [if_neg hw] at h
      simp only [decide_eq_true_eq] at h
      exact Or.inr h

/-- C8 amended, witness: with a count of 5 inside the window, the sixth
request is answered 429 without reaching validation or persistence. -/
theorem C8_amended_witness :
    (leadCadastrar (some ⟨5, 0⟩) 59000
      ⟨some "Ana", some "ana@example.com", none, none⟩).1 = 429 ∧
    (leadCadastrar (some ⟨5, 0⟩) 59000
      ⟨some "Ana", some "ana@example.com", none, none⟩).2.2 = false := by
  exact C8_amended.2.1 ⟨5, 0⟩ 59000
    ⟨some "Ana", some "ana@example.com", none, none⟩ (by decide) (by decide)

/-! ## C6 — notification retry bookkeeping -/

theorem mem_insertByEnviarEm {x y : NotifRow} {l : List NotifRow} :
    x ∈ insertByEnviarEm y l ↔ x = y ∨ x ∈ l := by
  induction l with
  | nil => simp [insertByEnviarEm]
  | cons z zs ih =>
    simp only [insertByEnviarEm]
    split
    · simp [List.mem_cons]
    · simp only [List.mem_cons, ih]
      tauto

theorem mem_sortByEnviarEm {x : NotifRow} {l : List NotifRow} :
    x ∈ sortByEnviarEm l ↔ x ∈ l := by
  induction l with
  | nil => simp [sortByEnviarEm]
  | cons z zs ih =>
    show x ∈ insertByEnviarEm z (sortByEnviarEm zs) ↔ _
    rw [mem_insertByEnviarEm, ih]
    simp [List.mem_cons]

/-- C6: a delivery failure increments the retry counter; below 3 the row
stays `pendente` rescheduled five minutes ahead, at 3 it becomes the
terminal `erro`; and the sweeper's batch contains only due `pendente`
rows (never `erro`) and at most 50 of them. -/
theorem C6_notification_retry_terminality :
    (∀ (table : List NotifRow) (nid : Nat) (erro : String) (now : Nat) (r : NotifRow),
      table.find? (fun x => x.id == nid) = some r →
      (r.tentativas + 1 < 3 →
        marcarNotificacaoErro table nid erro now = table.map (fun x =>
          if x.id == nid then
            { x with
              tentativas := r.tentativas + 1
              erro_mensagem := some erro
              status := "pendente"
              enviar_em := now + 5 * msPerMinute }
          else x)) ∧
      (3 ≤ r.tentativas + 1 →
        marcarNotificacaoErro table nid erro now = table.map (fun x =>
          if x.id == nid then
            { x with
              tentativas := r.tentativas + 1
              erro_mensagem := some erro
              status := "erro" }
          else x))) ∧
    (∀ (table : List NotifRow) (now : Nat) (x : NotifRow),
      x ∈ sweeperSelection table now →
        x.status = "pendente" ∧ x.enviar_em ≤ now ∧ x.status ≠ "erro") ∧
    (∀ (table : List NotifRow) (now : Nat), (sweeperSelection table now).length ≤ 50) := by
  refine ⟨?_, ?_, ?_⟩
  · intro table nid erro now r hfind
    constructor
    · intro hlt
      unfold marcarNotificacaoErro
      rw [hfind]
      dsimp only
      congr 1
      funext x
      by_cases hid : (x.id == nid) = true
      · rw [if_pos hid, if_pos hid, if_neg (by omega), if_pos hlt]
      · rw [if_neg hid, if_neg hid]
    · intro hge
      unfold marcarNotificacaoErro
      rw [hfind]
      dsimp only
      congr 1
      funext x
      by_cases hid : (x.id == nid) = true
      · rw [if_pos hid, if_pos hid, if_pos hge, if_neg (by omega)]
      · rw [if_neg hid, if_neg hid]
  · intro table now x hx
    have hx' : x ∈ notificacoesProntasEnvio table now := List.take_subset _ _ hx
    have hx'' : x ∈ table.filter
        (fun r => r.status == "pendente" && decide (r.enviar_em ≤ now)) :=
      mem_sortByEnviarEm.1 hx'
    have hp := (List.mem_filter.1 hx'').2
    simp only [Bool.and_eq_true, beq_iff_eq, decide_eq_true_eq] at hp
    exact ⟨hp.1, hp.2, by rw [hp.1]; decide⟩
  · intro table now
    exact List.length_take_le _ _

/-- C6 witness row: two previous failed attempts, still pending. -/
def c6Row : NotifRow :=
  { id := 1, status := "pendente", tentativas := 2, enviar_em := 0,
    erro_mensagem := none, recorrente := false, intervalo_dias := none }

/-- C6 witness: the third failure turns the row into terminal `erro`
with the counter at 3 and `enviar_em` unchanged, and an `erro` row is
not in the sweeper's batch. -/
theorem C6_notification_retry_terminality_witness :
    marcarNotificacaoErro [c6Row] 1 "falha no envio" 700 =
      [{ c6Row with
          tentativas := 3
          erro_mensagem := some "falha no envio"
          status := "erro" }] ∧
    sweeperSelection [{ c6Row with
        tentativas := 3
        erro_mensagem := some "falha no envio"
        status := "erro" }] 700 = [] := by
  constructor
  · have h := (C6_notification_retry_terminality.1 [c6Row] 1 "falha no envio" 700 c6Row
      (by rfl)).2 (by decide)
    rw [h]
    rfl
  · rfl

/-! ## C7 — contact upsert -/

theorem pairRows_append (l1 l2 : List ContatoRec) (uid tel : String) :
    pairRows (l1 ++ l2) uid tel = pairRows l1 uid tel ++ pairRows l2 uid tel :=
  List.filter_append _ _

theorem pairRows_map_upd (l : List ContatoRec) (f : ContatoRec → ContatoRec)
    (hf : ∀ r, (f r).usuario_id = r.usuario_id ∧ (f r).telefone = r.telefone)
    (uid tel : String) :
    pairRows (l.map f) uid tel = (pairRows l uid tel).map f := by
  unfold pairRows
  induction l with
  | nil => rfl
  | cons x xs ih =>
    rw [List.map_cons, List.filter_cons, List.filter_cons]
    have hx : ((f x).usuario_id == uid && (f x).telefone == tel) =
        (x.usuario_id == uid && x.telefone == tel) := by
      rw [(hf x).1, (hf x).2]
    rw [hx]
    by_cases hc : (x.usuario_id == uid && x.telefone == tel) = true
    · rw [if_pos hc, if_pos hc, List.map_cons, ih]
    · rw [if_neg hc, if_neg hc, ih]

/-- One `salvarContato` call, starting from a state where the saved pair
has at most one row: afterwards the pair has exactly one row carrying
the saved name and the normalised phone, and every other pair keeps its
row count. -/
theorem salvarContato_pair (st : ContatoState) (d : ContatoInput)
    (h : (pairRows st.table d.usuario_id (digitsOnly d.telefone)).length ≤ 1) :
    (∃ row, pairRows (salvarContato st d).table d.usuario_id (digitsOnly d.telefone) = [row] ∧
       row.nome = d.nome ∧ row.usuario_id = d.usuario_id ∧
       row.telefone = digitsOnly d.telefone) ∧
    (∀ uid tel, ¬ (uid = d.usuario_id ∧ tel = digitsOnly d.telefone) →
       (pairRows (salvarContato st d).table uid tel).length =
         (pairRows st.table uid tel).length) := by
  have hfpres : ∀ rid (row : ContatoRec),
      (contatoUpdateFn d rid row).usuario_id = row.usuario_id ∧
      (contatoUpdateFn d rid row).telefone = row.telefone := by
    intro rid row
    unfold contatoUpdateFn
    by_cases hid : (row.id == rid) = true
    · rw [if_pos hid]; exact ⟨rfl, rfl⟩
    · rw [if_neg hid]; exact ⟨rfl, rfl⟩
  rcases hm : pairRows st.table d.usuario_id (digitsOnly d.telefone) with _ | ⟨r, _ | ⟨r2, rest⟩⟩
  · -- no existing row: insert branch
    have hs : salvarContato st d =
        { table := st.table ++ [contatoNewRow d st.nextId], nextId := st.nextId + 1 } := by
      unfold salvarContato
      rw [hm]
    rw [hs]
    constructor
    · refine ⟨contatoNewRow d st.nextId, ?_, rfl, rfl, rfl⟩
      show pairRows (st.table ++ [contatoNewRow d st.nextId]) _ _ = _
      rw [pairRows_append, hm]
      unfold pairRows contatoNewRow
      rw [List.filter_cons, if_pos (by simp)]
      rfl
    · intro uid tel hne
      show (pairRows (st.table ++ [contatoNewRow d st.nextId]) uid tel).length = _
      rw [pairRows_append]
      have hz : pairRows [contatoNewRow d st.nextId] uid tel = [] := by
        unfold pairRows contatoNewRow
        rw [List.filter_cons, if_neg ?_]
        · rfl
        · simp only [Bool.and_eq_true, beq_iff_eq, not_and]
          intro h1 h2
          exact absurd ⟨h1.symm, h2.symm⟩ hne
      rw [hz, List.append_nil]
  · -- exactly one existing row: update branch
    have hs : salvarContato st d =
        { st with table := st.table.map (contatoUpdateFn d r.id) } := by
      unfold salvarContato
      rw [hm]
    rw [hs]
    have hrmem : r ∈ pairRows st.table d.usuario_id (digitsOnly d.telefone) := by
      rw [hm]; exact List.mem_singleton_self r
    have hrpred := (List.mem_filter.1 hrmem).2
    simp only [Bool.and_eq_true, beq_iff_eq] at hrpred
    constructor
    · refine ⟨contatoUpdateFn d r.id r, ?_, ?_, ?_, ?_⟩
      · show pairRows (st.table.map (contatoUpdateFn d r.id)) _ _ = _
        rw [pairRows_map_upd _ _ (hfpres r.id), hm, List.map_cons, List.map_nil]
      · unfold contatoUpdateFn
        rw [if_pos (by simp)]
      · rw [(hfpres r.id r).1]
        exact hrpred.1
      · rw [(hfpres r.id r).2]
        exact hrpred.2
    · intro uid tel _
      show (pairRows (st.table.map (contatoUpdateFn d r.id)) uid tel).length = _
      rw [pairRows_map_upd _ _ (hfpres r.id), List.length_map]
  · -- two or more rows cannot occur under the hypothesis
    exfalso
    rw [hm] at h
    simp at h

/-- `salvarContato` preserves pair uniqueness. -/
theorem salvarContato_unique (st : ContatoState) (d : ContatoInput)
    (h : contatoPairUnique st) : contatoPairUnique (salvarContato st d) := by
  intro uid tel
  by_cases hp : uid = d.usuario_id ∧ tel = digitsOnly d.telefone
  · rcases (salvarContato_pair st d (h _ _)).1 with ⟨row, hrow, -, -, -⟩
    rcases hp with ⟨rfl, rfl⟩
    rw [hrow]
    simp
  · rw [(salvarContato_pair st d (h _ _)).2 uid tel hp]
    exact h uid tel

/-- The length of the table after `salvarContato` when the pair already
has exactly one row: the update branch rewrites in place. -/
theorem salvarContato_update_len (st : ContatoState) (d : ContatoInput) (r : ContatoRec)
    (hm : pairRows st.table d.usuario_id (digitsOnly d.telefone) = [r]) :
    (salvarContato st d).table.length = st.table.length := by
  unfold salvarContato
  rw [hm]
  exact List.length_map _ _

/-- C7: creating two service orders for the same user and the same
client phone (modulo non-digits) with different client names leaves
exactly one contact row for the `(user, digits)` pair, named after the
second save; the row stores the digits-only phone; the second save does
not grow the table; and pair uniqueness is preserved. -/
theorem C7_contact_upsert (st : ContatoState) (uid n1 t1 n2 t2 : String)
    (e1 e2 : Option String) (num1 num2 : String)
    (hu : contatoPairUnique st)
    (hn1 : n1 ≠ "") (ht1 : t1 ≠ "") (hn2 : n2 ≠ "") (ht2 : t2 ≠ "")
    (hsame : digitsOnly t1 = digitsOnly t2) :
    (∃ row,
      pairRows (criarOSSalvarContato
          (criarOSSalvarContato st uid (some n1) (some t1) e1 num1)
          uid (some n2) (some t2) e2 num2).table uid (digitsOnly t2) = [row] ∧
      row.nome = n2 ∧ row.telefone = digitsOnly t2) ∧
    (criarOSSalvarContato (criarOSSalvarContato st uid (some n1) (some t1) e1 num1)
        uid (some n2) (some t2) e2 num2).table.length =
      (criarOSSalvarContato st uid (some n1) (some t1) e1 num1).table.length ∧
    contatoPairUnique (criarOSSalvarContato
        (criarOSSalvarContato st uid (some n1) (some t1) e1 num1)
        uid (some n2) (some t2) e2 num2) := by
  have hc1 : criarOSSalvarContato st uid (some n1) (some t1) e1 num1 =
      salvarContato st {
        usuario_id := uid
        nome := n1
        telefone := t1
        email := e1
        observacoes := some ("Cliente da OS " ++ num1)
        favorito := none } := by
    unfold criarOSSalvarContato
    rw [if_pos (by simp [truthyS, hn1, ht1])]
    rfl
  have hc2 : ∀ st', criarOSSalvarContato st' uid (some n2) (some t2) e2 num2 =
      salvarContato st' {
        usuario_id := uid
        nome := n2
        telefone := t2
        email := e2
        observacoes := some ("Cliente da OS " ++ num2)
        favorito := none } := by
    intro st'
    unfold criarOSSalvarContato
    rw [if_pos (by simp [truthyS, hn2, ht2])]
    rfl
  rw [hc1, hc2]
  set d1 : ContatoInput := {
    usuario_id := uid
    nome := n1
    telefone := t1
    email := e1
    observacoes := some ("Cliente da OS " ++ num1)
    favorito := none }
  set d2 : ContatoInput := {
    usuario_id := uid
    nome := n2
    telefone := t2
    email := e2
    observacoes := some ("Cliente da OS " ++ num2)
    favorito := none }
  have hu1 : contatoPairUnique (salvarContato st d1) := salvarContato_unique st d1 hu
  obtain ⟨⟨row1, hrow1, -, -, -⟩, -⟩ := salvarContato_pair st d1 (hu _ _)
  have hm2 : pairRows (salvarContato st d1).table d2.usuario_id (digitsOnly d2.telefone) = [row1] := by
    show pairRows _ uid (digitsOnly t2) = _
    rw [← hsame]
    exact hrow1
  obtain ⟨⟨row2, hrow2, hnome2, -, htel2⟩, -⟩ := salvarContato_pair (salvarContato st d1) d2 (hu1 _ _)
  refine ⟨⟨row2, hrow2, hnome2, htel2⟩, ?_, salvarContato_unique _ d2 hu1⟩
  exact salvarContato_update_len _ d2 row1 hm2

/-- C7 witness: from an empty table, two automatic saves for the same
user with phones that normalise to `11987654321` and names `João` then
`John` leave exactly one row, named `John`. -/
theorem C7_contact_upsert_witness :
    (pairRows (criarOSSalvarContato
        (criarOSSalvarContato ⟨[], 0⟩ "u1" (some "João") (some "11 98765-4321") none "OS-1")
        "u1" (some "John") (some "(11)987654321") none "OS-2").table
      "u1" (digitsOnly "(11)987654321")).length = 1 ∧
    (pairRows (criarOSSalvarContato
        (criarOSSalvarContato ⟨[], 0⟩ "u1" (some "João") (some "11 98765-4321") none "OS-1")
        "u1" (some "John") (some "(11)987654321") none "OS-2").table
      "u1" (digitsOnly "(11)987654321")).all
        (fun r => r.nome == "John" && r.telefone == digitsOnly "(11)987654321") = true := by
  obtain ⟨row, hrow, hnome, htel⟩ :=
    (C7_contact_upsert ⟨[], 0⟩ "u1" "João" "11 98765-4321" "John" "(11)987654321"
      none none "OS-1" "OS-2"
      (fun uid tel => by simp [pairRows])
      (by decide) (by decide) (by decide) (by decide) (by decide)).1
  rw [hrow]
  constructor
  · rfl
  · simp [hnome, htel]

/-! ## C2 / C9 — tool-call isolation and unknown tools -/

theorem executeFunctions_length (env : HandlerEnv) (tmpl : Templates)
    (calls : List ToolCall) :
    (executeFunctions env tmpl calls).length = calls.length := by
  induction calls with
  | nil => rfl
  | cons tc rest ih => simp [executeFunctions, ih]

theorem executeFunctions_append (env : HandlerEnv) (tmpl : Templates)
    (l1 l2 : List ToolCall) :
    executeFunctions env tmpl (l1 ++ l2) =
      executeFunctions env tmpl l1 ++ executeFunctions env tmpl l2 := by
  induction l1 with
  | nil => rfl
  | cons tc rest ih => simp [executeFunctions, ih]

/-- The error-result object produced by the catch branch of
`executeFunctions`. -/
def caughtResult (name : String) : JVal :=
  .jobj [("success", .jbool false),
         ("error", .jstr (traduzirErroParaUsuario name)),
         ("detalhes", .jstr "Ocorreu um erro ao processar sua solicitação.")]

/-- C2: `executeFunctions` yields exactly one result per requested call
in request order; the list decomposes around any call, so a throwing
call never disturbs its siblings; and a call whose handler throws
contributes the fixed `success:false` apology result instead of
propagating the exception. -/
theorem C2_tool_failure_isolation (env : HandlerEnv) (tmpl : Templates)
    (calls₁ calls₂ : List ToolCall) (tc : ToolCall) :
    (∀ calls, (executeFunctions env tmpl calls).length = calls.length) ∧
    executeFunctions env tmpl (calls₁ ++ tc :: calls₂) =
      executeFunctions env tmpl calls₁ ++
        execOne env tmpl tc :: executeFunctions env tmpl calls₂ ∧
    (∀ msg, tc.name ∈ knownTools → env tc.name tc.arguments = .thrown msg →
      execOne env tmpl tc = ⟨tc.id, caughtResult tc.name⟩) := by
  refine ⟨executeFunctions_length env tmpl, ?_, ?_⟩
  · rw [executeFunctions_append]
    rfl
  · intro msg hk hthrow
    unfold execOne
    rw [if_pos hk, hthrow]
    rfl

/-- C2 witness environment: every handler throws. -/
def envThrowAll : HandlerEnv := fun _ _ => .thrown "boom"

/-- C2 witness templates (template text is irrelevant to the claims). -/
def tmplNull : Templates :=
  { formatarListaOS := fun _ => ""
    formatarTotalizadores := fun _ => ""
    formatarResumoFinanceiro := fun _ => ""
    formatarDetalhesOS := fun _ => ""
    formatarConfirmacaoCriacaoOS := fun _ => ""
    formatarEstatisticas := fun _ => ""
    formatarSucesso := fun _ _ => "" }

/-- C2 witness: a throwing `salvar_contato` call in the middle of a list
still leaves its siblings' entries in place, in order, and contributes
the fixed apology object. -/
theorem C2_tool_failure_isolation_witness :
    executeFunctions envThrowAll tmplNull
      [⟨"c1", "ferramenta_x", .jnull⟩, ⟨"c2", "salvar_contato", .jnull⟩,
       ⟨"c3", "outra_ferramenta", .jnull⟩] =
      executeFunctions envThrowAll tmplNull [⟨"c1", "ferramenta_x", .jnull⟩] ++
        ⟨"c2", caughtResult "salvar_contato"⟩ ::
          executeFunctions envThrowAll tmplNull [⟨"c3", "outra_ferramenta", .jnull⟩] := by
  have h := C2_tool_failure_isolation envThrowAll tmplNull
    [⟨"c1", "ferramenta_x", .jnull⟩] [⟨"c3", "outra_ferramenta", .jnull⟩]
    ⟨"c2", "salvar_contato", .jnull⟩
  rw [show ([⟨"c1", "ferramenta_x", .jnull⟩, ⟨"c2", "salvar_contato", .jnull⟩,
      ⟨"c3", "outra_ferramenta", .jnull⟩] : List ToolCall) =
      [⟨"c1", "ferramenta_x", .jnull⟩] ++ ⟨"c2", "salvar_contato", .jnull⟩ ::
        [⟨"c3", "outra_ferramenta", .jnull⟩] from rfl]
  rw [h.2.1, h.2.2 "boom" (by decide) rfl]

/-- C9: a tool call whose name is not in the dispatch table takes the
`default` branch: its entry is the fixed `Função não implementada`
result, siblings are dispatched normally around it, and the entry is
computed without consulting any handler (it is the same under every
handler environment, i.e. no repository, messaging, or filesystem
operation can be involved). -/
theorem C9_unknown_tool (env env' : HandlerEnv) (tmpl : Templates)
    (calls₁ calls₂ : List ToolCall) (tc : ToolCall) (h : tc.name ∉ knownTools) :
    executeFunctions env tmpl (calls₁ ++ tc :: calls₂) =
      executeFunctions env tmpl calls₁ ++
        (⟨tc.id, .jobj [("success", .jbool false),
            ("error", .jstr "Função não implementada")]⟩ : ToolCallResult) ::
          executeFunctions env tmpl calls₂ ∧
    execOne env tmpl tc = execOne env' tmpl tc := by
  have hone : ∀ e : HandlerEnv, execOne e tmpl tc =
      ⟨tc.id, .jobj [("success", .jbool false),
        ("error", .jstr "Função não implementada")]⟩ := by
    intro e
    unfold execOne
    rw [if_neg h]
    rfl
  constructor
  · rw [executeFunctions_append]
    show executeFunctions env tmpl calls₁ ++
        execOne env tmpl tc :: executeFunctions env tmpl calls₂ = _
    rw [hone env]
  · rw [hone env, hone env']

/-- C9 witness: an unknown tool between two known ones yields exactly
the fixed result and ignores the handler environment. -/
theorem C9_unknown_tool_witness :
    executeFunctions envThrowAll tmplNull
      [⟨"c1", "salvar_contato", .jnull⟩, ⟨"c2", "ferramenta_inexistente", .jnull⟩] =
      executeFunctions envThrowAll tmplNull [⟨"c1", "salvar_contato", .jnull⟩] ++
        (⟨"c2", .jobj [("success", .jbool false),
            ("error", .jstr "Função não implementada")]⟩ : ToolCallResult) ::
          executeFunctions envThrowAll tmplNull [] := by
  exact (C9_unknown_tool envThrowAll envThrowAll tmplNull
    [⟨"c1", "salvar_contato", .jnull⟩] [] ⟨"c2", "ferramenta_inexistente", .jnull⟩
    (by decide)).1

/-! ## C3 — error strings shown for failed tools -/

theorem lookupStr_mem {l : List (String × String)} {k v : String}
    (h : lookupStr l k = some v) : v ∈ l.map Prod.snd := by
  induction l with
  | nil => cases h
  | cons p rest ih =>
    unfold lookupStr at h
    by_cases hk : (p.1 == k) = true
    · rw [if_pos hk] at h
      injection h with h
      subst h
      exact List.mem_cons.2 (Or.inl rfl)
    · rw [if_neg hk] at h
      exact List.mem_cons.2 (Or.inr (ih h))

/-- C3 amended: for exceptions that reach the per-call catch of
`executeFunctions`, the result's error string is the fixed table entry
for the tool (generic fallback included) and is independent of the
thrown message. -/
theorem C3_amended_fixed_table (env env' : HandlerEnv) (tmpl : Templates)
    (tc : ToolCall) (msg msg' : String) (hk : tc.name ∈ knownTools)
    (h : env tc.name tc.arguments = .thrown msg)
    (h' : env' tc.name tc.arguments = .thrown msg') :
    execOne env tmpl tc = execOne env' tmpl tc ∧
    (execOne env tmpl tc).result = caughtResult tc.name ∧
    (traduzirErroParaUsuario tc.name ∈ mensagensPadrao.map Prod.snd ∨
      traduzirErroParaUsuario tc.name =
        "Ops! Algo não saiu como esperado. Pode tentar novamente?") := by
  have hone : ∀ (e : HandlerEnv) m, e tc.name tc.arguments = .thrown m →
      execOne e tmpl tc = ⟨tc.id, caughtResult tc.name⟩ := by
    intro e m hm
    unfold execOne
    rw [if_pos hk, hm]
    rfl
  refine ⟨?_, ?_, ?_⟩
  · rw [hone env msg h, hone env' msg' h']
  · rw [hone env msg h]
  · unfold traduzirErroParaUsuario
    cases hl : lookupStr mensagensPadrao tc.name with
    | some m => exact Or.inl (lookupStr_mem hl)
    | none => exact Or.inr rfl

/-- C3 amended, witness: a thrown `criar_ordem_servico` handler yields
the fixed table apology for that tool. -/
theorem C3_amended_fixed_table_witness :
    (execOne envThrowAll tmplNull ⟨"c1", "criar_ordem_servico", .jnull⟩).result =
      caughtResult "criar_ordem_servico" :=
  (C3_amended_fixed_table envThrowAll envThrowAll tmplNull
    ⟨"c1", "criar_ordem_servico", .jnull⟩ "boom" "boom" (by decide) rfl rfl).2.1

/-- C3 counterexample fixtures: an existing order and contact, a PDF
that renders, and a media gateway that throws `ECONNRESET`. -/
def c3OS : OSRec :=
  { id := 7, numero_os := "OS-20240101-000007", usuario_id := "user-1",
    cliente_nome := "João", cliente_telefone := some "11999998888",
    criado_em := "2024-01-01", titulo := some "Troca de torneira",
    descricao := "troca", valor_estimado := some 150, status := "pendente",
    observacoes := none }

def c3Contato : ContatoRec :=
  { id := 1, usuario_id := "user-1", nome := "Carlos",
    telefone := "11988887777", email := none, observacoes := none,
    favorito := false }

def c3Deps : PdfToolDeps :=
  { getOrdemServicoByNumero := fun _ => .ok (some c3OS)
    buscarContatoPorNome := fun _ _ => .ok [c3Contato]
    generateOS := fun _ => .ok "/tmp/os.pdf"
    readFileBase64 := fun _ => .ok "JVBERi0="
    sendTextMessage := fun _ _ => .ok ()
    sendMedia := fun _ => .error "ECONNRESET"
    unlinkFile := fun _ => .ok () }

def c3Args : EnviarPdfArgs :=
  { numero_os := "OS-20240101-000007", nome_contato := "Carlos",
    mensagem_adicional := none }

def c3Env : HandlerEnv := fun name _ =>
  if name == "enviar_pdf_os_para_contato" then
    .ok (handleEnviarPdfOsParaContato c3Deps c3Args)
  else .thrown "n/a"

/-- C3 counterexample: when the media gateway throws `ECONNRESET`,
the `enviar_pdf_os_para_contato` handler catches internally and places
the raw exception text inside the tool-result error string, which
survives `executeFunctions` unchanged — so the error string is not
drawn from the fixed apology table and contains raw exception text. -/
theorem C3_counterexample :
    getField (handleEnviarPdfOsParaContato c3Deps c3Args) "error" =
      some (.jstr "Não consegui enviar o PDF: Falha ao enviar PDF: ECONNRESET") ∧
    executeFunctions c3Env tmplNull
        [⟨"call-1", "enviar_pdf_os_para_contato", .jnull⟩] =
      [⟨"call-1", .jobj [("success", .jbool false),
        ("error", .jstr "Não consegui enviar o PDF: Falha ao enviar PDF: ECONNRESET")]⟩] ∧
    strContains "Não consegui enviar o PDF: Falha ao enviar PDF: ECONNRESET"
      "ECONNRESET" = true ∧
    mensagensPadrao.all
      (fun p => p.2 != "Não consegui enviar o PDF: Falha ao enviar PDF: ECONNRESET") = true := by
  refine ⟨rfl, rfl, rfl, by decide⟩

/-! ## C1 — history bounding -/

/-- C1 counterexample fixture: a stored history already at the 20-entry
bound. -/
def c1Stored : List HMsg := List.replicate 20 (.userMsg "m")

/-- C1 counterexample: with a stored history of exactly 20 entries and a
plain-text reply, the history stored after `processUserMessage`
completes has 22 entries — the `slice(-20)` truncation happens before
the turn's entries are appended, not after, so the stored history can
exceed 20. -/
theorem C1_counterexample :
    (processUserMessageHistory c1Stored [] "oi" ⟨some "olá", []⟩
        envThrowAll tmplNull "fim").length = 22 ∧
    20 < (processUserMessageHistory c1Stored [] "oi" ⟨some "olá", []⟩
        envThrowAll tmplNull "fim").length := by
  constructor
  · rfl
  · decide

/-- C1 amended: the history handed to the model is the most recent
at-most-20 suffix of the loaded history (exact `slice(-20)` semantics,
oldest evicted first); the history stored when the call completes is
that suffix plus the new turn's entries — at most 22 entries without
tool calls and at most 24 + (number of tool calls) entries with them.
The bound 20 is only re-established at the start of the next call. -/
theorem C1_amended (stored db : List HMsg) (message : String) (ai : AiResponse)
    (env : HandlerEnv) (tmpl : Templates) (finalResponse : String) :
    truncateHistory (if stored.isEmpty then db else stored) =
      (if stored.isEmpty then db else stored).drop
        ((if stored.isEmpty then db else stored).length - 20) ∧
    (truncateHistory (if stored.isEmpty then db else stored)).length =
      min (if stored.isEmpty then db else stored).length 20 ∧
    List.IsSuffix (truncateHistory (if stored.isEmpty then db else stored))
      (if stored.isEmpty then db else stored) ∧
    (ai.toolCalls.isEmpty →
      processUserMessageHistory stored db message ai env tmpl finalResponse =
        truncateHistory (if stored.isEmpty then db else stored) ++
          [.userMsg message, .assistantMsg ai.response] ∧
      (processUserMessageHistory stored db message ai env tmpl finalResponse).length ≤ 22) ∧
    (processUserMessageHistory stored db message ai env tmpl finalResponse).length ≤
      24 + ai.toolCalls.length := by
  set loaded := if stored.isEmpty then db else stored with hloaded
  have hdrop : truncateHistory loaded = loaded.drop (loaded.length - 20) := by
    unfold truncateHistory
    by_cases hl : loaded.length > 20
    · rw [if_pos hl]
    · rw [if_neg hl]
      have : loaded.length - 20 = 0 := by omega
      rw [this, List.drop_zero]
  have hlen : (truncateHistory loaded).length = min loaded.length 20 := by
    rw [hdrop, List.length_drop]
    omega
  have hsuf : List.IsSuffix (truncateHistory loaded) loaded := by
    rw [hdrop]
    exact List.drop_suffix _ _
  have hlen20 : (truncateHistory loaded).length ≤ 20 := by
    rw [hlen]; omega
  refine ⟨hdrop, hlen, hsuf, ?_, ?_⟩
  · intro hempty
    have hmain : processUserMessageHistory stored db message ai env tmpl finalResponse =
        truncateHistory loaded ++ [.userMsg message, .assistantMsg ai.response] := by
      unfold processUserMessageHistory
      rw [← hloaded, if_pos hempty]
    refine ⟨hmain, ?_⟩
    rw [hmain, List.length_append]
    simp only [List.length_cons, List.length_nil]
    omega
  · unfold processUserMessageHistory
    rw [← hloaded]
    by_cases hempty : ai.toolCalls.isEmpty
    · rw [if_pos hempty]
      rw [List.length_append]
      simp only [List.length_cons, List.length_nil]
      omega
    · rw [if_neg hempty]
      dsimp only
      have htl : (executeFunctions env tmpl ai.toolCalls).length = ai.toolCalls.length :=
        executeFunctions_length env tmpl ai.toolCalls
      cases hctx : criarMensagemContexto message (executeFunctions env tmpl ai.toolCalls) with
      | some c =>
        simp only [List.length_append, List.length_cons, List.length_nil,
          List.length_map, htl]
        omega
      | none =>
        simp only [List.length_append, List.length_cons, List.length_nil,
          List.length_map, htl]
        omega

/-- C1 amended, witness: at the counterexample input the stored history
is the truncated prefix plus the two new entries, 22 entries total. -/
theorem C1_amended_witness :
    processUserMessageHistory c1Stored [] "oi" ⟨some "olá", []⟩
        envThrowAll tmplNull "fim" =
      truncateHistory (if c1Stored.isEmpty then [] else c1Stored) ++
        [.userMsg "oi", .assistantMsg (some "olá")] ∧
    (processUserMessageHistory c1Stored [] "oi" ⟨some "olá", []⟩
        envThrowAll tmplNull "fim").length ≤ 22 :=
  (C1_amended c1Stored [] "oi" ⟨some "olá", []⟩ envThrowAll tmplNull "fim").2.2.2.1
    (by decide)

/-! ## C4 — date parsing never yields a past timestamp -/

theorem dayStart_le (t : Nat) : dayStart t ≤ t := by
  unfold dayStart
  exact Nat.div_mul_le_self t msPerDay

theorem lt_dayStart_add (t : Nat) : t < dayStart t + msPerDay := by
  unfold dayStart
  have hmod := Nat.mod_lt t (show 0 < msPerDay by decide)
  have hdm := Nat.div_add_mod t msPerDay
  have hcomm : (t / msPerDay) * msPerDay = msPerDay * (t / msPerDay) := Nat.mul_comm _ _
  omega

theorem timeUnitMs_pos (u : TimeUnit) : 0 < timeUnitMs u := by
  cases u <;> decide

theorem char_le_of_isDigit {c : Char} (h : c.isDigit = true) : '0' ≤ c ∧ c ≤ '9' := by
  simp only [Char.isDigit, Bool.and_eq_true, decide_eq_true_eq] at h
  exact ⟨h.1, h.2⟩

theorem toLowerPt_digit {c : Char} (h : c.isDigit = true) : toLowerPt c = c := by
  have h9 := char_le_of_isDigit h
  unfold toLowerPt
  rw [if_neg, if_neg, if_neg, if_neg, if_neg, if_neg, if_neg, if_neg, if_neg,
    if_neg, if_neg, if_neg, if_neg]
  · rintro rfl; exact absurd h (by decide)
  · rintro rfl; exact absurd h (by decide)
  · rintro rfl; exact absurd h (by decide)
  · rintro rfl; exact absurd h (by decide)
  · rintro rfl; exact absurd h (by decide)
  · rintro rfl; exact absurd h (by decide)
  · rintro rfl; exact absurd h (by decide)
  · rintro rfl; exact absurd h (by decide)
  · rintro rfl; exact absurd h (by decide)
  · rintro rfl; exact absurd h (by decide)
  · rintro rfl; exact absurd h (by decide)
  · rintro rfl; exact absurd h (by decide)
  · rintro ⟨hA, _⟩
    exact absurd (le_trans hA h9.2) (by decide)

/-- The character classes produced by a successful strict ISO parse. -/
def IsoCharClass (c : Char) : Prop :=
  c.isDigit = true ∨ c = '-' ∨ c = ':' ∨ c = 'T' ∨ c = 'Z'

/-- A character outside the lowered ISO alphabet cannot appear in the
lowering of a string whose characters are all in the ISO classes. -/
theorem lower_iso_not_mem {cs : List Char}
    (hchars : ∀ c ∈ cs, IsoCharClass c) {x : Char}
    (hd : x.isDigit = false) (h1 : x ≠ '-') (h2 : x ≠ ':')
    (h3 : x ≠ 't') (h4 : x ≠ 'z') :
    x ∉ lowerList cs := by
  intro hmem
  rcases List.mem_map.1 hmem with ⟨c, hc, hlc⟩
  rcases hchars c hc with hdig | rfl | rfl | rfl | rfl
  · rw [toLowerPt_digit hdig] at hlc
    subst hlc
    rw [hdig] at hd
    cases hd
  · exact h1 hlc.symm
  · exact h2 hlc.symm
  · exact h3 hlc.symm
  · exact h4 hlc.symm

theorem findDaqui_occursIn {l : List Char} {r : Nat × TimeUnit}
    (h : findDaqui l = some r) : occursIn "daqui".toList l = true := by
  induction l with
  | nil => cases h
  | cons c cs ih =>
    unfold findDaqui at h
    unfold occursIn
    cases hm : matchDaquiAt (c :: cs) with
    | some r' =>
      have hpre : hasPre "daqui".toList (c :: cs) = true := by
        unfold matchDaquiAt at hm
        by_cases hp : hasPre "daqui".toList (c :: cs) = true
        · exact hp
        · rw [if_neg hp] at hm; cases hm
      rw [hpre]
      rfl
    | none =>
      rw [hm] at h
      rw [ih h, Bool.or_true]

theorem findWeekday_facts {l : List Char} {i : Nat}
    (h : findWeekday l = some i) :
    i < 7 ∧ occursIn ((diasSemana.getD i "").toList) l = true := by
  unfold findWeekday at h
  have hmem := List.mem_of_find?_eq_some h
  have hp := List.find?_some h
  exact ⟨List.mem_range.1 hmem, hp⟩

theorem anchoredHora_long (a b c d e f g : Char) (l : List Char) :
    anchoredHora (a :: b :: c :: d :: e :: f :: g :: l) = none := rfl

/-- A successful strict ISO parse constrains the input: every character
is a digit or one of `-:TZ`, the ISO-detection test holds, and the
anchored bare-hour pattern cannot match. -/
theorem jsDateParse_shape {cs : List Char} {t : Nat}
    (h : jsDateParse cs = some t) :
    (∀ c ∈ cs, IsoCharClass c) ∧ isoDetect cs = true ∧ anchoredHora cs = none := by
  unfold jsDateParse at h
  split at h
  case _ y1 y2 y3 y4 m1 m2 d1 d2 rest =>
    by_cases hdig : ([y1, y2, y3, y4, m1, m2, d1, d2].all Char.isDigit) = true
    case neg => rw [if_neg hdig] at h; cases h
    rw [if_pos hdig] at h
    simp only [List.all_cons, List.all_nil, Bool.and_eq_true, Bool.and_true] at hdig
    obtain ⟨hy1, hy2, hy3, hy4, hm1, hm2, hd1, hd2⟩ := hdig
    have hdetect : isoDetect (y1 :: y2 :: y3 :: y4 :: '-' :: m1 :: m2 :: '-' :: d1 :: d2 :: rest) = true := by
      have hred : isoDetect (y1 :: y2 :: y3 :: y4 :: '-' :: m1 :: m2 :: '-' :: d1 :: d2 :: rest) =
          ((y1 :: y2 :: y3 :: y4 :: '-' :: m1 :: m2 :: '-' :: d1 :: d2 :: rest).contains 'T' ||
           (y1 :: y2 :: y3 :: y4 :: '-' :: m1 :: m2 :: '-' :: d1 :: d2 :: rest).contains 'Z' ||
           [y1, y2, y3, y4, m1, m2, d1, d2].all Char.isDigit) := rfl
      rw [hred]
      simp [hy1, hy2, hy3, hy4, hm1, hm2, hd1, hd2]
    have hanch : anchoredHora (y1 :: y2 :: y3 :: y4 :: '-' :: m1 :: m2 :: '-' :: d1 :: d2 :: rest) = none :=
      anchoredHora_long _ _ _ _ _ _ _ _
    refine ⟨?_, hdetect, hanch⟩
    by_cases hrange : 1970 ≤ natOfDigits [y1, y2, y3, y4] ∧ 1 ≤ digit2 m1 m2 ∧
        digit2 m1 m2 ≤ 12 ∧ 1 ≤ digit2 d1 d2 ∧
        digit2 d1 d2 ≤ daysInMonth (isLeapYear (natOfDigits [y1, y2, y3, y4])) (digit2 m1 m2)
    case neg => rw [if_neg hrange] at h; cases h
    rw [if_pos hrange] at h
    have hrest : ∀ c ∈ rest, IsoCharClass c := by
      split at h
      · intro c hc; exact absurd hc (List.not_mem_nil c)
      · rename_i hb1c hb2c hn1c hn2c rest2
        by_cases htdig : ([hb1c, hb2c, hn1c, hn2c].all Char.isDigit) = true
        case neg => rw [if_neg htdig] at h; cases h
        rw [if_pos htdig] at h
        simp only [List.all_cons, List.all_nil, Bool.and_eq_true, Bool.and_true] at htdig
        obtain ⟨hb1, hb2, hb3, hb4⟩ := htdig
        by_cases hhr : digit2 hb1c hb2c ≤ 23 ∧ digit2 hn1c hn2c ≤ 59
        case neg => rw [if_neg hhr] at h; cases h
        rw [if_pos hhr] at h
        have hrest2 : ∀ c ∈ rest2, IsoCharClass c := by
          split at h
          · intro c hc; exact absurd hc (List.not_mem_nil c)
          · intro c hc
            simp only [List.mem_cons, List.not_mem_nil, or_false] at hc
            subst hc
            exact Or.inr (Or.inr (Or.inr (Or.inr rfl)))
          · rename_i hs1c hs2c rest3
            by_cases hsd : ((hs1c.isDigit && hs2c.isDigit) = true ∧ digit2 hs1c hs2c ≤ 59)
            case neg => rw [if_neg hsd] at h; cases h
            rw [if_pos hsd] at h
            obtain ⟨hsd1, -⟩ := hsd
            simp only [Bool.and_eq_true] at hsd1
            have hrest3 : ∀ c ∈ rest3, IsoCharClass c := by
              split at h
              · intro c hc; exact absurd hc (List.not_mem_nil c)
              · intro c hc
                simp only [List.mem_cons, List.not_mem_nil, or_false] at hc
                subst hc
                exact Or.inr (Or.inr (Or.inr (Or.inr rfl)))
              · cases h
            intro c hc
            simp only [List.mem_cons] at hc
            rcases hc with rfl | rfl | rfl | hc
            · exact Or.inr (Or.inr (Or.inl rfl))
            · exact Or.inl hsd1.1
            · exact Or.inl hsd1.2
            · exact hrest3 c hc
          · cases h
        intro c hc
        simp only [List.mem_cons] at hc
        rcases hc with rfl | rfl | rfl | rfl | rfl | rfl | hc
        · exact Or.inr (Or.inr (Or.inr (Or.inl rfl)))
        · exact Or.inl hb1
        · exact Or.inl hb2
        · exact Or.inr (Or.inr (Or.inl rfl))
        · exact Or.inl hb3
        · exact Or.inl hb4
        · exact hrest2 c hc
      · cases h
    intro c hc
    simp only [List.mem_cons] at hc
    rcases hc with rfl | rfl | rfl | rfl | rfl | rfl | rfl | rfl | rfl | rfl | hc
    · exact Or.inl hy1
    · exact Or.inl hy2
    · exact Or.inl hy3
    · exact Or.inl hy4
    · exact Or.inr (Or.inl rfl)
    · exact Or.inl hm1
    · exact Or.inl hm2
    · exact Or.inr (Or.inl rfl)
    · exact Or.inl hd1
    · exact Or.inl hd2
    · exact hrest c hc
  case _ =>
    cases h

theorem diasAteProximo_pos (i d : Nat) : 1 ≤ diasAteProximo i d := by
  unfold diasAteProximo
  split
  · omega
  · omega

theorem horaHojeOuAmanha_gt (agora h m : Nat) :
    agora < horaHojeOuAmanha agora h m := by
  unfold horaHojeOuAmanha
  have hday := lt_dayStart_add agora
  split
  · omega
  · omega

/-- The natural-language cascade never yields a past time, and yields
exactly `agora` only when the `daqui` pattern matched with quantity 0. -/
theorem parsearDataHoraNL_never_past (cs : List Char) (agora : Nat) :
    agora ≤ parsearDataHoraNL cs agora ∧
    (parsearDataHoraNL cs agora = agora →
      ∃ u, findDaqui (lowerList cs) = some (0, u)) := by
  unfold parsearDataHoraNL
  cases hd : findDaqui (lowerList cs) with
  | some qu =>
    obtain ⟨q, u⟩ := qu
    dsimp only
    refine ⟨Nat.le_add_right _ _, ?_⟩
    intro heq
    have hz : q * timeUnitMs u = 0 := by omega
    rcases Nat.mul_eq_zero.1 hz with hq | hu
    · exact ⟨u, by rw [hq]⟩
    · have := timeUnitMs_pos u
      omega
  | none =>
    dsimp only
    have hday := lt_dayStart_add agora
    have hstrict : agora <
        (if (occursIn "amanhã".toList (lowerList cs) ||
            occursIn "amanha".toList (lowerList cs)) = true then
          match findHora cs with
          | some (h, m) => dayStart agora + msPerDay + h * msPerHour + m * msPerMinute
          | none => dayStart agora + msPerDay + 9 * msPerHour
        else if occursIn "hoje".toList (lowerList cs) then
          match findHora cs with
          | some (h, m) => horaHojeOuAmanha agora h m
          | none => agora + msPerHour
        else
          match findWeekday (lowerList cs) with
          | some i =>
            match findHora cs with
            | some (h, m) =>
              dayStart agora + diasAteProximo i (weekdayOf agora) * msPerDay +
                h * msPerHour + m * msPerMinute
            | none =>
              dayStart agora + diasAteProximo i (weekdayOf agora) * msPerDay + 9 * msPerHour
          | none =>
            match anchoredHora cs with
            | some (h, m) => horaHojeOuAmanha agora h m
            | none => agora + msPerHour) := by
      split
      · cases hh : findHora cs with
        | some hm =>
          obtain ⟨h, m⟩ := hm
          dsimp only
          exact lt_of_lt_of_le hday
            (le_trans (Nat.le_add_right _ _) (Nat.le_add_right _ _))
        | none =>
          dsimp only
          exact lt_of_lt_of_le hday (Nat.le_add_right _ _)
      · split
        · cases hh : findHora cs with
          | some hm => obtain ⟨h, m⟩ := hm; dsimp only; exact horaHojeOuAmanha_gt agora h m
          | none => dsimp only; exact Nat.lt_add_of_pos_right (by decide)
        · cases hw : findWeekday (lowerList cs) with
          | some i =>
            dsimp only
            have hpos := diasAteProximo_pos i (weekdayOf agora)
            have hmul : msPerDay ≤ diasAteProximo i (weekdayOf agora) * msPerDay :=
              Nat.le_mul_of_pos_left _ hpos
            cases hh : findHora cs with
            | some hm =>
              obtain ⟨h, m⟩ := hm
              dsimp only
              exact lt_of_lt_of_le hday
                (le_trans (Nat.add_le_add_left hmul _)
                  (le_trans (Nat.le_add_right _ _) (Nat.le_add_right _ _)))
            | none =>
              dsimp only
              exact lt_of_lt_of_le hday
                (le_trans (Nat.add_le_add_left hmul _) (Nat.le_add_right _ _))
          | none =>
            dsimp only
            cases ha : anchoredHora cs with
            | some hm => obtain ⟨h, m⟩ := hm; dsimp only; exact horaHojeOuAmanha_gt agora h m
            | none => dsimp only; exact Nat.lt_add_of_pos_right (by decide)
    exact ⟨Nat.le_of_lt hstrict, fun heq => absurd heq (by omega)⟩

/-- C4 counterexample: `daqui 0 minutos` is a recognised
`daqui N minutos` input, and it resolves to exactly `now`, not to a
strictly future time. -/
theorem C4_counterexample :
    findDaqui (lowerList "daqui 0 minutos".toList) = some (0, .minuto) ∧
    parsearDataHora "daqui 0 minutos" 1000000 = 1000000 ∧
    parsearDataHora "daqui 0 minutos" 1000000 ≤ 1000000 := by
  have h1 : parsearDataHora "daqui 0 minutos" 1000000 = 1000000 := rfl
  exact ⟨rfl, h1, le_of_eq h1⟩

/-- C4 amended: `parsearDataHora` never returns a time earlier than
`now`; it returns exactly `now` only for inputs whose `daqui` pattern
matches with quantity 0 (strictly future for everything else); and an
input that parses as a valid ISO timestamp not in the future falls
through the cascade, matches no natural-language pattern, and lands on
the one-hour default. -/
theorem C4_never_past (s : String) (agora : Nat) :
    agora ≤ parsearDataHora s agora ∧
    (parsearDataHora s agora = agora →
      ∃ u, findDaqui (lowerList s.toList) = some (0, u)) ∧
    (∀ t, jsDateParse s.toList = some t → t ≤ agora →
      parsearDataHora s agora = agora + msPerHour) := by
  unfold parsearDataHora
  cases hi : isoResultOf s.toList agora with
  | some t0 =>
    dsimp only
    have hiso : jsDateParse s.toList = some t0 ∧ agora < t0 := by
      unfold isoResultOf at hi
      by_cases hdet : isoDetect s.toList = true
      · rw [if_pos hdet] at hi
        cases hp : jsDateParse s.toList with
        | some t1 =>
          rw [hp] at hi
          dsimp only at hi
          by_cases hgt : t1 > agora
          · rw [if_pos hgt] at hi
            injection hi with hi
            subst hi
            exact ⟨rfl, hgt⟩
          · rw [if_neg hgt] at hi; cases hi
        | none => rw [hp] at hi; dsimp only at hi; cases hi
      · rw [if_neg (by simpa using hdet)] at hi; cases hi
    refine ⟨Nat.le_of_lt hiso.2, fun heq => absurd heq (by omega), ?_⟩
    intro t hp hle
    rw [hiso.1] at hp
    injection hp with hp
    omega
  | none =>
    dsimp only
    have haux := parsearDataHoraNL_never_past s.toList agora
    refine ⟨haux.1, haux.2, ?_⟩
    intro t hp hle
    obtain ⟨hchars, hdetect, hanch⟩ := jsDateParse_shape hp
    have hdaqui : findDaqui (lowerList s.toList) = none := by
      cases hfd : findDaqui (lowerList s.toList) with
      | none => rfl
      | some r =>
        exfalso
        have hocc := findDaqui_occursIn hfd
        exact lower_iso_not_mem hchars (by decide) (by decide) (by decide)
          (by decide) (by decide) (occursIn_sub hocc 'q' (by decide))
    have hAm1 : occursIn "amanhã".toList (lowerList s.toList) = false := by
      cases hb : occursIn "amanhã".toList (lowerList s.toList) with
      | false => rfl
      | true =>
        exact absurd (occursIn_sub hb 'm' (by decide))
          (lower_iso_not_mem hchars (by decide) (by decide) (by decide)
            (by decide) (by decide))
    have hAm2 : occursIn "amanha".toList (lowerList s.toList) = false := by
      cases hb : occursIn "amanha".toList (lowerList s.toList) with
      | false => rfl
      | true =>
        exact absurd (occursIn_sub hb 'm' (by decide))
          (lower_iso_not_mem hchars (by decide) (by decide) (by decide)
            (by decide) (by decide))
    have hHoje : occursIn "hoje".toList (lowerList s.toList) = false := by
      cases hb : occursIn "hoje".toList (lowerList s.toList) with
      | false => rfl
      | true =>
        exact absurd (occursIn_sub hb 'j' (by decide))
          (lower_iso_not_mem hchars (by decide) (by decide) (by decide)
            (by decide) (by decide))
    have hW : findWeekday (lowerList s.toList) = none := by
      cases hw : findWeekday (lowerList s.toList) with
      | none => rfl
      | some i =>
        exfalso
        obtain ⟨hi7, hocc⟩ := findWeekday_facts hw
        interval_cases i
        · exact absurd (occursIn_sub hocc 'd' (by decide))
            (lower_iso_not_mem hchars (by decide) (by decide) (by decide)
              (by decide) (by decide))
        · exact absurd (occursIn_sub hocc 'g' (by decide))
            (lower_iso_not_mem hchars (by decide) (by decide) (by decide)
              (by decide) (by decide))
        · exact absurd (occursIn_sub hocc 'r' (by decide))
            (lower_iso_not_mem hchars (by decide) (by decide) (by decide)
              (by decide) (by decide))
        · exact absurd (occursIn_sub hocc 'q' (by decide))
            (lower_iso_not_mem hchars (by decide) (by decide) (by decide)
              (by decide) (by decide))
        · exact absurd (occursIn_sub hocc 'q' (by decide))
            (lower_iso_not_mem hchars (by decide) (by decide) (by decide)
              (by decide) (by decide))
        · exact absurd (occursIn_sub hocc 'x' (by decide))
            (lower_iso_not_mem hchars (by decide) (by decide) (by decide)
              (by decide) (by decide))
        · exact absurd (occursIn_sub hocc 'b' (by decide))
            (lower_iso_not_mem hchars (by decide) (by decide) (by decide)
              (by decide) (by decide))
    unfold parsearDataHoraNL
    rw [hdaqui, hAm1, hAm2, hHoje, hW, hanch]
    rfl

/-- C4 amended, witness: at a concrete input that parses as a past ISO
timestamp, the parser returns exactly one hour from now, which is not in
the past. -/
theorem C4_never_past_witness :
    parsearDataHora "2020-01-01T05:00Z" 1700000000000 = 1700000000000 + msPerHour ∧
    1700000000000 ≤ parsearDataHora "2020-01-01T05:00Z" 1700000000000 := by
  have h := C4_never_past "2020-01-01T05:00Z" 1700000000000
  exact ⟨h.2.2 1577854800000 rfl (by omega), h.1⟩

end OSZap
